import Mathlib

/-!
Verification development for the AFCA watershed-dataset processing pipeline.

The Python sources (scripts/process-usgs-raw-data.py, scripts/process-water-data.py,
scripts/validate-water-data.py) are shallowly embedded below:

* Python strings are modelled as `List Char` (`PyStr`); string operations used by
  the scripts (`in`, `startswith`-style scans, `replace(pat, "")`, `split("-")`,
  slicing) are implemented directly on `List Char`.
* Python floats are modelled as exact rationals; `round(x, n)` is modelled as
  round-half-even at `n` decimal digits (`pyRound`).
* Python's builtin `float(str)` numeric parsing is treated as an abstract oracle
  `f : PyStr -> Option ℚ` passed to the conversion functions (a `ValueError`
  is `none`); `int(str)` is modelled by `pyParseNat`, which agrees with Python
  on the canonical decimal numerals occurring in pipeline file names.
* Python dicts are modelled as insertion-ordered association lists; dict literals
  become either structures (with a `...Fields` view listing the literal's keys in
  order) or association lists directly.
-/

set_option maxRecDepth 100000

abbrev PyStr := List Char

/-- Does `s` start with `pat`?  (Helper for the substring test `pat in s`.) -/
def pyStartsWith : PyStr → PyStr → Bool
  | _, [] => true
  | [], _ :: _ => false
  | c :: s, p :: ps => c == p && pyStartsWith s ps

/-- Python's `pat in s` substring test. -/
def pyContains (pat : PyStr) : PyStr → Bool
  | [] => pyStartsWith [] pat
  | c :: t => pyStartsWith (c :: t) pat || pyContains pat t

/-- Python's `s.endswith(pat)`. -/
def pyEndsWith (s pat : PyStr) : Bool :=
  pyStartsWith s.reverse pat.reverse

/-- Python's `s.split("-")`. -/
def splitDash : PyStr → List PyStr
  | [] => [[]]
  | c :: t =>
    let rest := splitDash t
    if c = '-' then [] :: rest
    else
      match rest with
      | [] => [[c]]
      | h :: r => (c :: h) :: r

/-- Fuel-driven worker for `pyRemoveAll` (structural recursion on the fuel so
that concrete instances reduce in the kernel). -/
def removeAllFuel (pat : PyStr) : Nat → PyStr → PyStr
  | 0, s => s
  | _ + 1, [] => []
  | f + 1, c :: t =>
    if !pat.isEmpty && pyStartsWith (c :: t) pat then
      removeAllFuel pat f ((c :: t).drop pat.length)
    else
      c :: removeAllFuel pat f t

/-- Python's `s.replace(pat, "")`: delete every occurrence of `pat` in `s`,
scanning left to right. -/
def pyRemoveAll (s pat : PyStr) : PyStr :=
  removeAllFuel pat s.length s

/-- Numeric value of a decimal digit character. -/
def digitVal (c : Char) : Nat := c.toNat - 48

/-- Python's `int(str)` as used on the pipeline's file-name components: a
non-empty all-digit string parses to its decimal value, anything else raises
(`none`).  (Python's `int` additionally strips whitespace and accepts a sign
and underscores; those forms never reach the call sites modelled here.) -/
def pyParseNat (s : PyStr) : Option Nat :=
  if !s.isEmpty && s.all Char.isDigit then
    some (s.foldl (fun a c => a * 10 + digitVal c) 0)
  else
    none

/-- Fuel-driven most-significant-digit-first decimal printer worker. -/
def natReprAux : Nat → Nat → List Char
  | 0, _ => []
  | _ + 1, 0 => []
  | f + 1, n + 1 => natReprAux f ((n + 1) / 10) ++ [Nat.digitChar ((n + 1) % 10)]

/-- Python's `str(n)` / f-string rendering of a non-negative integer. -/
def natRepr (n : Nat) : PyStr :=
  if n = 0 then ['0'] else natReprAux n n

/-- The three-tier quality enum (`good` / `fair` / `poor`). -/
inductive Quality where
  | good
  | fair
  | poor
deriving DecidableEq

/-- Qualifier codes that degrade a sample to `fair` in the sources. -/
def fairCodes : List PyStr := ["P".data, "e".data, "A".data]

/-- Qualifier codes that degrade a sample to `poor` in the sources. -/
def poorCodes : List PyStr := ["R".data, "S".data]

/-- Per-sample quality classification, from the qualifier loop of
`USGSRawDataProcessor._convert_to_daily_data` (process-usgs-raw-data.py,
lines 133-140) and `WaterDataProcessor._extract_usgs_parameter`
(process-water-data.py, lines 86-92): start from `good` and overwrite the
tier for each recognized qualifier code in list order. -/
def classifyQuality (codes : List PyStr) : Quality :=
  codes.foldl
    (fun q c =>
      if c ∈ fairCodes then Quality.fair
      else if c ∈ poorCodes then Quality.poor
      else q)
    Quality.good

/-- The canonical parameters handled by the USGS raw processor (the
`parameter_map` values; the `unknown` case returns before conversion). -/
inductive Param where
  | flow
  | temperature
  | stage
  | conductivity
  | dissolvedOxygen
  | turbidity
  | ph
deriving DecidableEq

/-- Decimal digits used by the per-day `round(avg_value, _)` calls of
`USGSRawDataProcessor._convert_to_daily_data` (lines 172-186). -/
def precision : Param → Nat
  | .flow => 2
  | .temperature => 2
  | .stage => 2
  | .conductivity => 0
  | .dissolvedOxygen => 2
  | .turbidity => 2
  | .ph => 2

/-- Round-half-even to an integer (the tie-breaking rule of Python's
`round`). -/
def roundHalfEven (q : ℚ) : ℤ :=
  if q - (q.floor : ℚ) < 1 / 2 then q.floor
  else if 1 / 2 < q - (q.floor : ℚ) then q.floor + 1
  else if q.floor % 2 = 0 then q.floor else q.floor + 1

/-- Python's `round(x, nd)` on floats, modelled as exact decimal
round-half-even on rationals. -/
def pyRound (nd : Nat) (q : ℚ) : ℚ :=
  (roundHalfEven (q * 10 ^ nd) : ℚ) / 10 ^ nd

/-- A raw USGS sample as consumed by the conversion loops: the `dateTime`
string, the raw `value` string, and the list of qualifier codes (the
`qualifierCode` entries of the `qualifiers` list). -/
structure RawSample where
  dateTime : PyStr
  value : PyStr
  qualifiers : List PyStr
deriving DecidableEq

/-- One entry of the per-date group built by
`USGSRawDataProcessor._convert_to_daily_data` (lines 146-150). -/
structure DayEntry where
  value : ℚ
  quality : Quality
  datetime : PyStr
deriving DecidableEq

/-- Append `e` to the group of key `d`, creating the group at the end when
absent (Python dict + list-append semantics). -/
def appendAt {β : Type} (d : PyStr) (e : β) :
    List (PyStr × List β) → List (PyStr × List β)
  | [] => [(d, [e])]
  | (k, es) :: rest =>
    if k = d then (k, es ++ [e]) :: rest else (k, es) :: appendAt d e rest

/-- The grouping loop of `USGSRawDataProcessor._convert_to_daily_data`
(lines 116-153): skip the `-999999` sentinel and the empty string, skip
values the float parser `f` rejects, classify quality from the qualifiers,
and group the rest by the date prefix `dateTime[:10]`. -/
def groupStepU (f : PyStr → Option ℚ) (acc : List (PyStr × List DayEntry))
    (v : RawSample) : List (PyStr × List DayEntry) :=
  if v.value == "-999999".data || v.value == [] then acc
  else
    match f v.value with
    | none => acc
    | some q =>
      appendAt (v.dateTime.take 10)
        { value := q, quality := classifyQuality v.qualifiers,
          datetime := v.dateTime } acc

/-- The grouping fold itself. -/
def groupValidU (f : PyStr → Option ℚ) (values : List RawSample) :
    List (PyStr × List DayEntry) :=
  values.foldl (groupStepU f) []

/-- The day-quality rule of `USGSRawDataProcessor._convert_to_daily_data`
(lines 163-170): `good` when every constituent is good, else `poor` when some
constituent is poor, else `fair`. -/
def dailyQualityU (qs : List Quality) : Quality :=
  if qs.all (· == Quality.good) then Quality.good
  else if qs.any (· == Quality.poor) then Quality.poor
  else Quality.fair

/-- One aggregated daily record.  The parameter-specific output key
(`flow_cfs`, `temperature_c`, ...) carries no information beyond the
parameter, so the numeric payload is modelled as a single `value` field. -/
structure DailyRec where
  date : PyStr
  value : ℚ
  quality : Quality
deriving DecidableEq

/-- Daily average assembly for one date group
(`_convert_to_daily_data`, lines 157-194 of process-usgs-raw-data.py). -/
def mkDailyU (p : Param) (date : PyStr) (grp : List DayEntry) : DailyRec :=
  { date := date
    value := pyRound (precision p) ((grp.map DayEntry.value).sum / (grp.map DayEntry.value).length)
    quality := dailyQualityU (grp.map DayEntry.quality) }

/-- Date-ordering relation used by the final `sorted(..., key=date)` calls. -/
def dRecLe (a b : DailyRec) : Prop := a.date ≤ b.date

instance : DecidableRel dRecLe := fun a b => inferInstanceAs (Decidable (a.date ≤ b.date))

instance : IsTotal DailyRec dRecLe := ⟨fun a b => le_total a.date b.date⟩

instance : IsTrans DailyRec dRecLe := ⟨fun _ _ _ h h2 => le_trans h h2⟩

/-- `USGSRawDataProcessor._convert_to_daily_data` (lines 112-196): filter and
group the raw samples by date, average each date's group, and sort the daily
records ascending by date. -/
def convertToDailyDataU (f : PyStr → Option ℚ) (values : List RawSample) (p : Param) :
    List DailyRec :=
  (((groupValidU f values).filter (fun g => !g.2.isEmpty)).map
      (fun g => mkDailyU p g.1 g.2)).insertionSort dRecLe

/-- A data point produced by `WaterDataProcessor._extract_usgs_parameter`
(lines 94-98): day-resolution date, value (`none` for the sentinel), and the
per-sample quality. -/
structure WPoint where
  date : PyStr
  value : Option ℚ
  quality : Quality
deriving DecidableEq

/-- The per-value body of `WaterDataProcessor._extract_usgs_parameter`
(lines 79-100): classify quality, turn the `-999999` sentinel into `None`,
and drop the point entirely when `float()` raises (which covers the empty
string). -/
def extractPointW (f : PyStr → Option ℚ) (v : RawSample) : Option WPoint :=
  let quality := classifyQuality v.qualifiers
  if v.value == "-999999".data then
    some { date := v.dateTime.take 10, value := none, quality := quality }
  else
    match f v.value with
    | none => none
    | some q => some { date := v.dateTime.take 10, value := some q, quality := quality }

/-- The extraction loop of `WaterDataProcessor._extract_usgs_parameter`. -/
def extractUsgsParameterW (f : PyStr → Option ℚ) (values : List RawSample) : List WPoint :=
  values.filterMap (extractPointW f)

/-- The year-grouping loop of `WaterDataProcessor._save_usgs_data`
(lines 112-118): group by `date[:4]`, keeping only points whose value is not
`None`. -/
def groupByYearW (pts : List WPoint) : List (PyStr × List WPoint) :=
  pts.foldl
    (fun acc p => if p.value.isSome then appendAt (p.date.take 4) p acc else acc)
    []

/-- The date-grouping loop of `WaterDataProcessor._convert_to_daily_data`
(lines 179-183). -/
def groupByDateW (pts : List WPoint) : List (PyStr × List WPoint) :=
  pts.foldl (fun acc p => appendAt p.date p acc) []

/-- One date group of `WaterDataProcessor._convert_to_daily_data`
(lines 187-197): average the non-`None` values (skipping the date when there
are none) and mark the day `good` exactly when every point of the group is
good, else `fair`. -/
def mkDailyW (date : PyStr) (grp : List WPoint) : Option DailyRec :=
  let vals := grp.filterMap WPoint.value
  if vals.isEmpty then none
  else
    some
      { date := date
        value := pyRound 2 (vals.sum / vals.length)
        quality :=
          if grp.all (fun p => p.quality == Quality.good) then Quality.good
          else Quality.fair }

/-- `WaterDataProcessor._convert_to_daily_data` (lines 175-199). -/
def convertToDailyDataW (pts : List WPoint) : List DailyRec :=
  ((groupByDateW pts).filterMap (fun g => mkDailyW g.1 g.2)).insertionSort dRecLe

/-- The `statistics` block. -/
structure StatsRec where
  mean : ℚ
  min : ℚ
  max : ℚ
  count : Nat
deriving DecidableEq

/-- Python's `min(values)` on a non-empty list (call sites guard emptiness). -/
def pyMin : List ℚ → ℚ
  | [] => 0
  | v :: t => t.foldl min v

/-- Python's `max(values)` on a non-empty list (call sites guard emptiness). -/
def pyMax : List ℚ → ℚ
  | [] => 0
  | v :: t => t.foldl max v

/-- The statistics computation shared by
`USGSRawDataProcessor._save_processed_data` (lines 225-231) and
`WaterDataProcessor._save_usgs_data` (lines 123-130): mean, min and max each
rounded to 2 decimals, and the count of the value list. -/
def computeStats (vs : List ℚ) : StatsRec :=
  { mean := pyRound 2 (vs.sum / vs.length)
    min := pyRound 2 (pyMin vs)
    max := pyRound 2 (pyMax vs)
    count := vs.length }

/-- Canonical parameter name strings (`parameter_map` values / the
`param_name` branches). -/
def paramKey : Param → PyStr
  | .flow => "flow".data
  | .temperature => "temperature".data
  | .stage => "stage".data
  | .conductivity => "conductivity".data
  | .dissolvedOxygen => "dissolved_oxygen".data
  | .turbidity => "turbidity".data
  | .ph => "ph".data

/-- Units per parameter (`_save_processed_data`, lines 201-221). -/
def paramUnit : Param → PyStr
  | .flow => "ft³/s".data
  | .temperature => "°C".data
  | .stage => "ft".data
  | .conductivity => "µS/cm".data
  | .dissolvedOxygen => "mg/L".data
  | .turbidity => "NTU".data
  | .ph => "pH units".data

/-- The canonical per-location/parameter/year record (`afca_data` dict of
`_save_processed_data`, lines 234-244). -/
structure AfcaRecord where
  location_id : ℤ
  location_name : PyStr
  year : ℤ
  parameter : PyStr
  unit : PyStr
  data : List DailyRec
  statistics : StatsRec
  source : PyStr
  last_updated : PyStr
deriving DecidableEq

/-- `USGSRawDataProcessor._save_processed_data` (lines 198-244): extract the
daily values, and when non-empty assemble the canonical record with the
2-decimal statistics.  `now` stands for `datetime.now().isoformat()`. -/
def saveProcessedDataU (p : Param) (locId : ℤ) (locName : PyStr) (year : ℤ)
    (yearData : List DailyRec) (now : PyStr) : Option AfcaRecord :=
  let values := yearData.map DailyRec.value
  if values.isEmpty then none
  else
    some
      { location_id := locId
        location_name := locName
        year := year
        parameter := paramKey p
        unit := paramUnit p
        data := yearData
        statistics := computeStats values
        source := "USGS Stream Gauge Network".data
        last_updated := now }

/-- One year's branch of `WaterDataProcessor._save_usgs_data`
(lines 121-171): statistics over the raw (sub-daily) values of the year,
daily records from `_convert_to_daily_data`; parameters other than
flow/temperature/stage are skipped by the `else: continue` branch. -/
def saveUsgsDataYearW (p : Param) (locId : ℤ) (locName : PyStr) (year : ℤ)
    (yearData : List WPoint) (now : PyStr) : Option AfcaRecord :=
  let values := yearData.filterMap WPoint.value
  if values.isEmpty then none
  else
    match p with
    | .flow | .temperature | .stage =>
      some
        { location_id := locId
          location_name := locName
          year := year
          parameter := paramKey p
          unit := paramUnit p
          data := convertToDailyDataW yearData
          statistics := computeStats values
          source := "USGS Stream Gauge Network".data
          last_updated := now }
    | _ => none

/-- One day of EPA water-quality data (`quality_data` dict of
`process_epa_water_quality_data`, lines 224-231; `_safe_float` yields `none`
on unparsable or empty input). -/
structure QDayRec where
  date : PyStr
  ph : Option ℚ
  dissolved_oxygen_mg_l : Option ℚ
  turbidity_ntu : Option ℚ
  conductivity_us_cm : Option ℚ
  quality : Quality
deriving DecidableEq

/-- The record written by `WaterDataProcessor.process_epa_water_quality_data`
(the `afca_data` dict, lines 240-248). -/
structure EpaRecord where
  location_id : ℤ
  location_name : PyStr
  year : ℤ
  parameter : PyStr
  data : List QDayRec
  source : PyStr
  last_updated : PyStr
deriving DecidableEq

/-- Assembly of the EPA yearly record (lines 239-248): note the dict literal
has no `unit` and no `statistics` key. -/
def mkEpaRecord (locId : ℤ) (locName : PyStr) (year : ℤ)
    (yearData : List QDayRec) (now : PyStr) : EpaRecord :=
  { location_id := locId
    location_name := locName
    year := year
    parameter := "water_quality".data
    data := yearData
    source := "EPA National Aquatic Resource Surveys".data
    last_updated := now }

/-- Payload of one key of a persisted record dict. -/
inductive FieldVal where
  | fint (z : ℤ)
  | fstr (s : PyStr)
  | fdays (d : List DailyRec)
  | fstats (s : StatsRec)
  | fqdays (d : List QDayRec)
deriving DecidableEq

/-- The key/value pairs of the USGS `afca_data` dict literal, in source
order (process-usgs-raw-data.py lines 234-244; identically
process-water-data.py lines 150-160). -/
def afcaRecordFields (r : AfcaRecord) : List (String × FieldVal) :=
  [("location_id", .fint r.location_id),
   ("location_name", .fstr r.location_name),
   ("year", .fint r.year),
   ("parameter", .fstr r.parameter),
   ("unit", .fstr r.unit),
   ("data", .fdays r.data),
   ("statistics", .fstats r.statistics),
   ("source", .fstr r.source),
   ("last_updated", .fstr r.last_updated)]

/-- The key/value pairs of the EPA `afca_data` dict literal, in source order
(process-water-data.py lines 240-248). -/
def epaRecordFields (r : EpaRecord) : List (String × FieldVal) :=
  [("location_id", .fint r.location_id),
   ("location_name", .fstr r.location_name),
   ("year", .fint r.year),
   ("parameter", .fstr r.parameter),
   ("data", .fqdays r.data),
   ("source", .fstr r.source),
   ("last_updated", .fstr r.last_updated)]

/-- The canonical record schema keys (spec §6). -/
def schemaKeys : List String :=
  ["location_id", "location_name", "year", "parameter", "unit", "data",
   "statistics", "source", "last_updated"]

/-- The five data directories scanned by `update_manifest`. -/
inductive DirName where
  | watersheds
  | temperature
  | quality
  | flow
  | stage
deriving DecidableEq

/-- Directory names as listed in `update_manifest`. -/
def dirString : DirName → PyStr
  | .watersheds => "02-watersheds".data
  | .temperature => "03-temperature".data
  | .quality => "04-quality".data
  | .flow => "05-flow".data
  | .stage => "06-stage".data

/-- The scan order of `update_manifest`. -/
def scanOrder : List DirName :=
  [DirName.watersheds, DirName.temperature, DirName.quality, DirName.flow, DirName.stage]

/-- The on-disk listings of the five data directories (`none` models a
directory that does not exist; `os.path.exists` guards the listing). -/
structure DataDirs where
  watersheds : Option (List PyStr)
  temperature : Option (List PyStr)
  quality : Option (List PyStr)
  flow : Option (List PyStr)
  stage : Option (List PyStr)

/-- Listing lookup. -/
def listingOf (d : DataDirs) : DirName → Option (List PyStr)
  | .watersheds => d.watersheds
  | .temperature => d.temperature
  | .quality => d.quality
  | .flow => d.flow
  | .stage => d.stage

/-- The fabricated watershed path
`f"data/02-watersheds/location-{location_id}.json"`. -/
def watershedPath (i : Nat) : PyStr :=
  "data/02-watersheds/location-".data ++ natRepr i ++ ".json".data

/-- The per-year category path
`f"data/<dir>/location-{location_id}-{year}.json"`. -/
def tsPath (dn : DirName) (i y : Nat) : PyStr :=
  "data/".data ++ dirString dn ++ "/location-".data ++ natRepr i ++
    '-' :: (natRepr y ++ ".json".data)

/-- One `organized[location_id]` entry (dict literal of `update_manifest`,
field order as in the source). -/
structure ManifestEntry where
  watershed : PyStr
  temperature : List (PyStr × PyStr)
  flow : List (PyStr × PyStr)
  quality : List (PyStr × PyStr)
  stage : List (PyStr × PyStr)
deriving DecidableEq

/-- Python dict item assignment on an association list: replace in place, or
append when the key is new. -/
def setKey {β : Type} (k : PyStr) (v : β) :
    List (PyStr × β) → List (PyStr × β)
  | [] => [(k, v)]
  | (k0, v0) :: rest =>
    if k0 = k then (k0, v) :: rest else (k0, v0) :: setKey k v rest

/-- Python `key in dict`. -/
def hasKey {β : Type} (k : PyStr) (l : List (PyStr × β)) : Bool :=
  l.any (fun e => e.1 == k)

/-- The fresh entry created for a location
(`update_manifest`, lines 322-329 of process-usgs-raw-data.py). -/
def defaultEntry (i : Nat) : ManifestEntry :=
  { watershed := watershedPath i
    temperature := []
    flow := []
    quality := []
    stage := [] }

/-- `organized[str(location_id)][<category>][str(year)] = path`
(lines 331-339): the category is selected by the directory being scanned;
the watershed directory matches no branch. -/
def addCatPath (e : ManifestEntry) (dn : DirName) (i y : Nat) : ManifestEntry :=
  match dn with
  | .temperature => { e with temperature := setKey (natRepr y) (tsPath dn i y) e.temperature }
  | .flow => { e with flow := setKey (natRepr y) (tsPath dn i y) e.flow }
  | .quality => { e with quality := setKey (natRepr y) (tsPath dn i y) e.quality }
  | .stage => { e with stage := setKey (natRepr y) (tsPath dn i y) e.stage }
  | .watersheds => e

/-- Mutable state of the `update_manifest` scan. -/
structure ScanState where
  total : Nat
  locs : Finset Nat
  years : Finset Nat
  organized : List (PyStr × ManifestEntry)
deriving DecidableEq

/-- Update the entry stored under location `i` (the key is present at every
call site because of the preceding `not in` insertion). -/
def updateEntry (org : List (PyStr × ManifestEntry)) (i : Nat)
    (f : ManifestEntry → ManifestEntry) : List (PyStr × ManifestEntry) :=
  org.map (fun kv => if kv.1 = natRepr i then (kv.1, f kv.2) else kv)

/-- The success continuation shared by both `update_manifest` scans once a
location id and a year have been parsed: record both, create the location's
organized entry when absent (with the fabricated watershed path), and set
the per-year category path. -/
def scanSuccess (dn : DirName) (st : ScanState) (i y : Nat) : ScanState :=
  let st1 : ScanState := { st with locs := insert i st.locs }
  let st2 : ScanState := { st1 with years := insert y st1.years }
  let org :=
    if hasKey (natRepr i) st2.organized then st2.organized
    else st2.organized ++ [(natRepr i, defaultEntry i)]
  { st2 with organized := updateEntry org i (fun e => addCatPath e dn i y) }

/-- Per-filename body of `USGSRawDataProcessor.update_manifest`
(lines 310-342): require the `location-` substring and at least 3
dash-separated parts, parse the location id and year (a `ValueError` skips
the rest of the body, so a bad year still records the location), then build
the organized entry. -/
def processFileU (dn : DirName) (st : ScanState) (fn : PyStr) : ScanState :=
  if pyContains "location-".data fn then
    let parts := splitDash (pyRemoveAll fn ".json".data)
    if parts.length ≥ 3 then
      match (parts.get? 1).bind pyParseNat with
      | none => st
      | some i =>
        match (parts.get? 2).bind pyParseNat with
        | none => { st with locs := insert i st.locs }
        | some y => scanSuccess dn st i y
    else st
  else st

/-- Per-filename body of `WaterDataProcessor.update_manifest`
(lines 435-468): same as the USGS variant except that only 2 parts are
required to record the location, the year/organized block needing 3. -/
def processFileW (dn : DirName) (st : ScanState) (fn : PyStr) : ScanState :=
  if pyContains "location-".data fn then
    let parts := splitDash (pyRemoveAll fn ".json".data)
    if parts.length ≥ 2 then
      match (parts.get? 1).bind pyParseNat with
      | none => st
      | some i =>
        if parts.length ≥ 3 then
          match (parts.get? 2).bind pyParseNat with
          | none => { st with locs := insert i st.locs }
          | some y => scanSuccess dn st i y
        else { st with locs := insert i st.locs }
    else st
  else st

/-- Per-directory body of `update_manifest`: skip a missing directory, filter
the listing to `.json` files, add their number to `total_files`, and process
each filename. -/
def processDirAux (step : DirName → ScanState → PyStr → ScanState)
    (d : DataDirs) (st : ScanState) (dn : DirName) : ScanState :=
  match listingOf d dn with
  | none => st
  | some listing =>
    let files := listing.filter (fun f => pyEndsWith f ".json".data)
    files.foldl (step dn) { st with total := st.total + files.length }

/-- The directory scan of `USGSRawDataProcessor.update_manifest`. -/
def scanU (d : DataDirs) : ScanState :=
  scanOrder.foldl (processDirAux processFileU d) ⟨0, ∅, ∅, []⟩

/-- The directory scan of `WaterDataProcessor.update_manifest`. -/
def scanW (d : DataDirs) : ScanState :=
  scanOrder.foldl (processDirAux processFileW d) ⟨0, ∅, ∅, []⟩

/-- The manifest `statistics` block. -/
structure ManifestStats where
  total_files : Nat
  locations_covered : Nat
  years_covered : List Nat
deriving DecidableEq

/-- The manifest artifact (fields other than the rebuilt blocks are carried
through unchanged; `version` stands for them). -/
structure Manifest where
  version : PyStr
  statistics : ManifestStats
  organized : List (PyStr × ManifestEntry)
  last_updated : PyStr
deriving DecidableEq

/-- `USGSRawDataProcessor.update_manifest` (lines 288-354): scan the data
directories and replace the `statistics`, `organized` and `last_updated`
blocks of the loaded manifest. -/
def updateManifestU (m : Manifest) (d : DataDirs) (now : PyStr) : Manifest :=
  let st := scanU d
  { version := m.version
    statistics :=
      { total_files := st.total
        locations_covered := st.locs.card
        years_covered := st.years.sort (· ≤ ·) }
    organized := st.organized
    last_updated := now }

/-- `WaterDataProcessor.update_manifest` (lines 413-480). -/
def updateManifestW (m : Manifest) (d : DataDirs) (now : PyStr) : Manifest :=
  let st := scanW d
  { version := m.version
    statistics :=
      { total_files := st.total
        locations_covered := st.locs.card
        years_covered := st.years.sort (· ≤ ·) }
    organized := st.organized
    last_updated := now }

/-- Full paths of the files actually present in a scanned directory. -/
def dirPaths (d : DataDirs) (dn : DirName) : List PyStr :=
  match listingOf d dn with
  | none => []
  | some listing => listing.map (fun f => "data/".data ++ dirString dn ++ '/' :: f)

/-- Full paths of every file present in the scanned data directories. -/
def scannedPaths (d : DataDirs) : List PyStr :=
  (scanOrder.map (dirPaths d)).flatten

/-- JSON-like values as inspected by the validator. -/
inductive VVal where
  | vint (z : ℤ)
  | vnum (q : ℚ)
  | vstr (s : PyStr)
  | vnull
  | varr (items : List VVal)
  | vobj (fields : List (String × VVal))

/-- A parsed record object: the top-level JSON dict. -/
abbrev VObj := List (String × VVal)

/-- Python dict lookup (first match). -/
def lookupV : VObj → String → Option VVal
  | [], _ => none
  | (k0, v) :: rest, k => if k0 = k then some v else lookupV rest k

/-- `isinstance(v, (int, float))` plus numeric payload. -/
def asNumV : VVal → Option ℚ
  | .vint z => some (z : ℚ)
  | .vnum q => some q
  | _ => none

/-- `isinstance(v, int)`. -/
def isIntV : Option VVal → Bool
  | some (.vint _) => true
  | _ => false

/-- The validator's accumulated results (`validation_results`); error and
warning entries are modelled by their file path and `type` tag (the
human-readable message is presentation only). -/
structure VResults where
  files_checked : Nat
  files_valid : Nat
  files_invalid : Nat
  errors : List (PyStr × String)
  warnings : List (PyStr × String)
deriving DecidableEq

/-- Initial `validation_results`. -/
def emptyResults : VResults :=
  { files_checked := 0, files_valid := 0, files_invalid := 0, errors := [], warnings := [] }

/-- Record an error entry. -/
def addError (res : VResults) (path : PyStr) (ty : String) : VResults :=
  { res with errors := res.errors ++ [(path, ty)] }

/-- Record a warning entry. -/
def addWarning (res : VResults) (path : PyStr) (ty : String) : VResults :=
  { res with warnings := res.warnings ++ [(path, ty)] }

/-- `WaterDataValidator.validate_basic_structure` (validate-water-data.py,
lines 104-139): required-field presence (watershed files, recognized by the
`'watershed' in file_path` test, have their own list), then integer type
checks for `location_id` and (non-watershed only) `year`. -/
def validateBasicStructure (path : PyStr) (data : VObj) (res : VResults) :
    Bool × VResults :=
  let isW := pyContains "watershed".data path
  let required : List String :=
    if isW then ["location_id", "location_name", "data_sources", "last_updated"]
    else ["location_id", "location_name", "year", "parameter", "source", "last_updated"]
  match required.find? (fun k => (lookupV data k).isNone) with
  | some _ => (false, addError res path "missing_field")
  | none =>
    if !isIntV (lookupV data "location_id") then (false, addError res path "type_error")
    else if !isW && !isIntV (lookupV data "year") then (false, addError res path "type_error")
    else (true, res)

/-- The per-day loop of `validate_temperature_data` (lines 153-177): missing
`temperature_c` or a non-numeric value is an error that stops the scan; an
out-of-range value only appends a warning.  A non-dict day raises in Python
and surfaces as the `unexpected_error` handler of `validate_file`; the
persisted records only ever contain dicts here. -/
def checkTempDays (path : PyStr) : List VVal → VResults → Bool × VResults
  | [], res => (true, res)
  | day :: rest, res =>
    match day with
    | .varr _ | .vint _ | .vnum _ | .vstr _ | .vnull =>
      (false, addError res path "unexpected_error")
    | .vobj dfields =>
      match lookupV dfields "temperature_c" with
      | none => (false, addError res path "missing_field")
      | some v =>
        match asNumV v with
        | none => (false, addError res path "invalid_value")
        | some t =>
          let res := if t < -5 ∨ t > 25 then addWarning res path "unusual_value" else res
          checkTempDays path rest res

/-- The statistics-consistency block of `validate_temperature_data`
(lines 179-188): when a statistics dict with `mean`, `min` and `max` is
present, an inconsistent ordering only appends a warning.  Non-numeric
payloads would raise in Python and surface via the `unexpected_error`
handler of `validate_file`. -/
def checkStatsConsistency (path : PyStr) (data : VObj) (res : VResults) :
    Bool × VResults :=
  match lookupV data "statistics" with
  | none => (true, res)
  | some (.vobj s) =>
    match lookupV s "mean", lookupV s "min", lookupV s "max" with
    | some m, some mn, some mx =>
      match asNumV m, asNumV mn, asNumV mx with
      | some mq, some mnq, some mxq =>
        (true,
          if ¬(mnq ≤ mq ∧ mq ≤ mxq) then addWarning res path "statistics_warning"
          else res)
      | _, _, _ => (false, addError res path "unexpected_error")
    | _, _, _ => (true, res)
  | some _ => (false, addError res path "unexpected_error")

/-- `WaterDataValidator.validate_temperature_data` (lines 141-190). -/
def validateTemperatureData (path : PyStr) (data : VObj) (res : VResults) :
    Bool × VResults :=
  match lookupV data "data" with
  | none => (false, addError res path "missing_data")
  | some (.varr days) =>
    match checkTempDays path days res with
    | (false, res2) => (false, res2)
    | (true, res2) => checkStatsConsistency path data res2
  | some _ => (false, addError res path "unexpected_error")

/-- The per-day loop of `validate_flow_data` (lines 204-228). -/
def checkFlowDays (path : PyStr) : List VVal → VResults → Bool × VResults
  | [], res => (true, res)
  | day :: rest, res =>
    match day with
    | .varr _ | .vint _ | .vnum _ | .vstr _ | .vnull =>
      (false, addError res path "unexpected_error")
    | .vobj dfields =>
      match lookupV dfields "flow_cfs" with
      | none => (false, addError res path "missing_field")
      | some v =>
        match asNumV v with
        | none => (false, addError res path "invalid_value")
        | some q =>
          let res := if q < 0 ∨ q > 50000 then addWarning res path "unusual_value" else res
          checkFlowDays path rest res

/-- `WaterDataValidator.validate_flow_data` (lines 192-230). -/
def validateFlowData (path : PyStr) (data : VObj) (res : VResults) :
    Bool × VResults :=
  match lookupV data "data" with
  | none => (false, addError res path "missing_data")
  | some (.varr days) => checkFlowDays path days res
  | some _ => (false, addError res path "unexpected_error")

/-- The per-day loop of `validate_quality_data` (lines 244-273): each day
needs at least one quality parameter; when `ph` is present it must be
numeric, and a value outside `[4, 10]` only appends a warning. -/
def checkQualityDays (path : PyStr) : List VVal → VResults → Bool × VResults
  | [], res => (true, res)
  | day :: rest, res =>
    match day with
    | .varr _ | .vint _ | .vnum _ | .vstr _ | .vnull =>
      (false, addError res path "unexpected_error")
    | .vobj dfields =>
      if !(["ph", "dissolved_oxygen_mg_l", "turbidity_ntu",
            "conductivity_us_cm"].any (fun k => (lookupV dfields k).isSome)) then
        (false, addError res path "missing_field")
      else
        match lookupV dfields "ph" with
        | none => checkQualityDays path rest res
        | some v =>
          match asNumV v with
          | none => (false, addError res path "invalid_value")
          | some q =>
            let res := if q < 4 ∨ q > 10 then addWarning res path "unusual_value" else res
            checkQualityDays path rest res

/-- `WaterDataValidator.validate_quality_data` (lines 232-275). -/
def validateQualityData (path : PyStr) (data : VObj) (res : VResults) :
    Bool × VResults :=
  match lookupV data "data" with
  | none => (false, addError res path "missing_data")
  | some (.varr days) => checkQualityDays path days res
  | some _ => (false, addError res path "unexpected_error")

/-- `WaterDataValidator.validate_watershed_data` (lines 277-307). -/
def validateWatershedData (path : PyStr) (data : VObj) (res : VResults) :
    Bool × VResults :=
  match (["drainage_area_sq_miles", "primary_tributaries"].find?
      (fun k => (lookupV data k).isNone)) with
  | some _ => (false, addError res path "missing_field")
  | none =>
    match asNumV ((lookupV data "drainage_area_sq_miles").getD .vnull) with
    | none => (false, addError res path "type_error")
    | some a => (true, if a ≤ 0 then addWarning res path "unusual_value" else res)

/-- `WaterDataValidator.validate_file` (lines 56-102): bump `files_checked`,
run the basic-structure check and the directory-specific check, and count the
file valid or invalid. -/
def validateFile (dirName path : PyStr) (data : VObj) (res : VResults) : VResults :=
  let res0 := { res with files_checked := res.files_checked + 1 }
  match validateBasicStructure path data res0 with
  | (false, res1) => { res1 with files_invalid := res1.files_invalid + 1 }
  | (true, res1) =>
    let step : Bool × VResults :=
      if dirName = "03-temperature".data then validateTemperatureData path data res1
      else if dirName = "05-flow".data then validateFlowData path data res1
      else if dirName = "04-quality".data then validateQualityData path data res1
      else if dirName = "02-watersheds".data then validateWatershedData path data res1
      else (true, res1)
    match step with
    | (false, res2) => { res2 with files_invalid := res2.files_invalid + 1 }
    | (true, res2) => { res2 with files_valid := res2.files_valid + 1 }

/-- A persisted data file as seen by the validator: its directory name, file
name, and parsed JSON object. -/
structure StoredFile where
  dir : PyStr
  name : PyStr
  content : VObj

/-- The validator's world: the data files and the report file it writes. -/
structure ValidatorStore where
  files : List StoredFile
  report : Option VResults

/-- `WaterDataValidator.validate_all_data_files` (lines 30-44 plus
`generate_validation_report`): validate every data file in scan order and
write only the report; the data files are read, never written. -/
def runValidator (s : ValidatorStore) : ValidatorStore :=
  { files := s.files
    report :=
      some (s.files.foldl
        (fun res sf =>
          validateFile sf.dir ("./data/".data ++ sf.dir ++ '/' :: sf.name) sf.content res)
        emptyResults) }

/-! ### Rounding lemmas -/

theorem ratFloor_eq_floor (q : ℚ) : q.floor = ⌊q⌋ := by
  rw [Rat.floor_def, Rat.floor_def']

theorem roundHalfEven_bounds (q : ℚ) :
    ⌊q⌋ ≤ roundHalfEven q ∧ roundHalfEven q ≤ ⌊q⌋ + 1 := by
  unfold roundHalfEven
  rw [ratFloor_eq_floor]
  split_ifs <;> omega

theorem roundHalfEven_mono {q r : ℚ} (h : q ≤ r) :
    roundHalfEven q ≤ roundHalfEven r := by
  rcases lt_or_le ⌊q⌋ ⌊r⌋ with hf | hf
  · have hq := (roundHalfEven_bounds q).2
    have hr := (roundHalfEven_bounds r).1
    omega
  · have heq : ⌊q⌋ = ⌊r⌋ := le_antisymm (Int.floor_mono h) hf
    unfold roundHalfEven
    rw [ratFloor_eq_floor, ratFloor_eq_floor, heq]
    split_ifs <;> first
      | omega
      | (exfalso; linarith)

theorem pyRound_mono (nd : Nat) {q r : ℚ} (h : q ≤ r) :
    pyRound nd q ≤ pyRound nd r := by
  unfold pyRound
  have hp : (0 : ℚ) < 10 ^ nd := by positivity
  refine (div_le_div_right hp).mpr ?_
  exact_mod_cast roundHalfEven_mono (mul_le_mul_of_nonneg_right h (le_of_lt hp))

/-! ### Min / mean / max lemmas -/

theorem foldl_min_le (t : List ℚ) (v : ℚ) : t.foldl min v ≤ v := by
  induction t generalizing v with
  | nil => simp
  | cons x t ih => exact le_trans (ih (min v x)) (min_le_left v x)

theorem le_foldl_max (t : List ℚ) (v : ℚ) : v ≤ t.foldl max v := by
  induction t generalizing v with
  | nil => simp
  | cons x t ih => exact le_trans (le_max_left v x) (ih (max v x))

theorem foldl_min_mul_le_sum (t : List ℚ) (v : ℚ) :
    (t.foldl min v) * ((t.length : ℚ) + 1) ≤ v + t.sum := by
  induction t generalizing v with
  | nil => simp
  | cons x t ih =>
    have h1 := ih (min v x)
    have h2 := foldl_min_le t (min v x)
    have h3 := min_le_left v x
    have h4 := min_le_right v x
    have key : (t.foldl min (min v x)) * (((x :: t).length : ℚ) + 1) =
        (t.foldl min (min v x)) * ((t.length : ℚ) + 1) + t.foldl min (min v x) := by
      simp only [List.length_cons]
      push_cast
      ring
    simp only [List.foldl_cons, List.sum_cons]
    linarith [key]

theorem sum_le_foldl_max_mul (t : List ℚ) (v : ℚ) :
    v + t.sum ≤ (t.foldl max v) * ((t.length : ℚ) + 1) := by
  induction t generalizing v with
  | nil => simp
  | cons x t ih =>
    have h1 := ih (max v x)
    have h2 := le_foldl_max t (max v x)
    have h3 := le_max_left v x
    have h4 := le_max_right v x
    have key : (t.foldl max (max v x)) * (((x :: t).length : ℚ) + 1) =
        (t.foldl max (max v x)) * ((t.length : ℚ) + 1) + t.foldl max (max v x) := by
      simp only [List.length_cons]
      push_cast
      ring
    simp only [List.foldl_cons, List.sum_cons]
    linarith [key]

theorem pyMin_le_mean (vs : List ℚ) (h : vs ≠ []) :
    pyMin vs ≤ vs.sum / vs.length := by
  match vs, h with
  | v :: t, _ =>
    have hpos : (0 : ℚ) < ((v :: t).length : ℚ) := by
      exact_mod_cast Nat.succ_pos t.length
    rw [le_div_iff hpos]
    have := foldl_min_mul_le_sum t v
    simp only [pyMin, List.length_cons, List.sum_cons]
    push_cast
    linarith

theorem mean_le_pyMax (vs : List ℚ) (h : vs ≠ []) :
    vs.sum / vs.length ≤ pyMax vs := by
  match vs, h with
  | v :: t, _ =>
    have hpos : (0 : ℚ) < ((v :: t).length : ℚ) := by
      exact_mod_cast Nat.succ_pos t.length
    rw [div_le_iff hpos]
    have := sum_le_foldl_max_mul t v
    simp only [pyMax, List.length_cons, List.sum_cons]
    push_cast
    linarith

theorem computeStats_ordered (vs : List ℚ) (h : vs ≠ []) :
    (computeStats vs).min ≤ (computeStats vs).mean ∧
    (computeStats vs).mean ≤ (computeStats vs).max :=
  ⟨pyRound_mono 2 (pyMin_le_mean vs h), pyRound_mono 2 (mean_le_pyMax vs h)⟩

/-! ### Claim C6 -/

/-- Placeholder record for `Option.getD` in concrete instantiations. -/
def defaultAfcaRecord : AfcaRecord :=
  { location_id := 0, location_name := [], year := 0, parameter := [], unit := [],
    data := [], statistics := ⟨0, 0, 0, 0⟩, source := [], last_updated := [] }

/-- Claim C6, amended: for every record persisted by
`USGSRawDataProcessor._save_processed_data`, `min <= mean <= max` holds and
`count` equals the number of daily samples of the record's `data`; for every
record persisted by the per-year branch of
`WaterDataProcessor._save_usgs_data`, `min <= mean <= max` also holds, but
`count` equals the number of valid raw sub-daily points of the year, not the
number of daily records. -/
theorem c6_statistics_bounds :
    (∀ p locId locName year yd now rec,
        saveProcessedDataU p locId locName year yd now = some rec →
          rec.statistics.min ≤ rec.statistics.mean ∧
          rec.statistics.mean ≤ rec.statistics.max ∧
          rec.statistics.count = rec.data.length) ∧
    (∀ p locId locName year pts now rec,
        saveUsgsDataYearW p locId locName year pts now = some rec →
          rec.statistics.min ≤ rec.statistics.mean ∧
          rec.statistics.mean ≤ rec.statistics.max ∧
          rec.statistics.count = (pts.filterMap WPoint.value).length) := by
  constructor
  · intro p locId locName year yd now rec h
    unfold saveProcessedDataU at h
    by_cases he : (yd.map DailyRec.value).isEmpty
    · simp [he] at h
    · simp only [he, Bool.false_eq_true, if_false, Option.some.injEq] at h
      have hne : yd.map DailyRec.value ≠ [] := by
        simpa [List.isEmpty_iff] using he
      have hb := computeStats_ordered (yd.map DailyRec.value) hne
      subst h
      refine ⟨hb.1, hb.2, ?_⟩
      simp [computeStats]
  · intro p locId locName year pts now rec h
    unfold saveUsgsDataYearW at h
    by_cases he : (pts.filterMap WPoint.value).isEmpty
    · simp [he] at h
    · have hne : pts.filterMap WPoint.value ≠ [] := by
        simpa [List.isEmpty_iff] using he
      have hb := computeStats_ordered (pts.filterMap WPoint.value) hne
      cases p <;> simp only [he, Bool.false_eq_true, if_false, Option.some.injEq] at h <;>
        first
        | (subst h; exact ⟨hb.1, hb.2, by simp [computeStats]⟩)
        | cases h

/-- Sample daily record for the C6 witness. -/
def c6SampleDay : DailyRec :=
  { date := "2023-06-01".data, value := 13, quality := Quality.fair }

/-- Witness for C6: the statistics of a concretely persisted record are
ordered and counted as stated. -/
theorem c6_statistics_bounds_witness :
    ((saveProcessedDataU Param.temperature 410 [] 2023 [c6SampleDay] []).getD
        defaultAfcaRecord).statistics.min ≤
      ((saveProcessedDataU Param.temperature 410 [] 2023 [c6SampleDay] []).getD
        defaultAfcaRecord).statistics.mean ∧
    ((saveProcessedDataU Param.temperature 410 [] 2023 [c6SampleDay] []).getD
        defaultAfcaRecord).statistics.mean ≤
      ((saveProcessedDataU Param.temperature 410 [] 2023 [c6SampleDay] []).getD
        defaultAfcaRecord).statistics.max ∧
    ((saveProcessedDataU Param.temperature 410 [] 2023 [c6SampleDay] []).getD
        defaultAfcaRecord).statistics.count =
      ((saveProcessedDataU Param.temperature 410 [] 2023 [c6SampleDay] []).getD
        defaultAfcaRecord).data.length :=
  c6_statistics_bounds.1 Param.temperature 410 [] 2023 [c6SampleDay] [] _
    (by with_unfolding_all decide)

/-- Two same-date sub-daily flow points for the C6 counterexample. -/
def c6pts : List WPoint :=
  [{ date := "2023-06-01".data, value := some 1, quality := Quality.good },
   { date := "2023-06-01".data, value := some 3, quality := Quality.good }]

/-- Counterexample to C6 as stated: the water-data processor persists a
record whose `statistics.count` is 2 while its `data` holds a single daily
sample. -/
theorem c6_counterexample :
    (saveUsgsDataYearW Param.flow 410 [] 2023 c6pts []).isSome = true ∧
    ((saveUsgsDataYearW Param.flow 410 [] 2023 c6pts []).getD
        defaultAfcaRecord).statistics.count = 2 ∧
    ((saveUsgsDataYearW Param.flow 410 [] 2023 c6pts []).getD
        defaultAfcaRecord).data.length = 1 := by
  with_unfolding_all decide

/-! ### Claim C5 -/

/-- The tier a single qualifier code maps to, `none` when unrecognized. -/
def recognizedTier (c : PyStr) : Option Quality :=
  if c ∈ fairCodes then some Quality.fair
  else if c ∈ poorCodes then some Quality.poor
  else none

/-- The qualifier fold of `classifyQuality` started from an arbitrary
accumulator. -/
def classifyFrom (acc : Quality) (codes : List PyStr) : Quality :=
  codes.foldl
    (fun q c =>
      if c ∈ fairCodes then Quality.fair
      else if c ∈ poorCodes then Quality.poor
      else q)
    acc

theorem getLastD_cons {α : Type} (F : List α) :
    ∀ t acc : α, ((t :: F).getLast?).getD acc = (F.getLast?).getD t := by
  induction F with
  | nil => intro t acc; rfl
  | cons f F ih =>
    intro t acc
    rw [List.getLast?_cons_cons]
    rw [ih f acc, ih f t]

theorem classifyFrom_eq (codes : List PyStr) :
    ∀ acc, classifyFrom acc codes =
      ((codes.filterMap recognizedTier).getLast?).getD acc := by
  induction codes with
  | nil => intro acc; rfl
  | cons c rest ih =>
    intro acc
    by_cases hf : c ∈ fairCodes
    · have hstep : classifyFrom acc (c :: rest) = classifyFrom Quality.fair rest := by
        simp [classifyFrom, hf]
      have hrec : recognizedTier c = some Quality.fair := by simp [recognizedTier, hf]
      rw [hstep, ih Quality.fair, List.filterMap_cons, hrec]
      exact (getLastD_cons _ _ _).symm
    · by_cases hp : c ∈ poorCodes
      · have hstep : classifyFrom acc (c :: rest) = classifyFrom Quality.poor rest := by
          simp [classifyFrom, hf, hp]
        have hrec : recognizedTier c = some Quality.poor := by simp [recognizedTier, hf, hp]
        rw [hstep, ih Quality.poor, List.filterMap_cons, hrec]
        exact (getLastD_cons _ _ _).symm
      · have hstep : classifyFrom acc (c :: rest) = classifyFrom acc rest := by
          simp [classifyFrom, hf, hp]
        have hrec : recognizedTier c = none := by simp [recognizedTier, hf, hp]
        rw [hstep, ih acc, List.filterMap_cons, hrec]

/-- Claim C5, amended: the per-sample classifier returns the tier of the
LAST recognized qualifier code in list order (`fair` for `{P, e, A}`, `poor`
for `{R, S}`), and `good` when no code is recognized; a sample carrying an
`{R, S}` code followed by a `{P, e, A}` code therefore classifies as `fair`,
not `poor`. -/
theorem c5_classifier_last_wins (codes : List PyStr) :
    classifyQuality codes =
      ((codes.filterMap recognizedTier).getLast?).getD Quality.good ∧
    (codes.filterMap recognizedTier = [] → classifyQuality codes = Quality.good) := by
  have h : classifyQuality codes = classifyFrom Quality.good codes := rfl
  refine ⟨h.trans (classifyFrom_eq codes Quality.good), ?_⟩
  intro hnone
  rw [h, classifyFrom_eq codes Quality.good, hnone]
  rfl

/-- Witness for C5: a sample with only the unrecognized code `Z` classifies
as `good`. -/
theorem c5_classifier_last_wins_witness :
    classifyQuality ["Z".data] = Quality.good :=
  (c5_classifier_last_wins ["Z".data]).2 (by decide)

/-- Counterexample to C5 as stated: a sample carrying both the poor-tier
code `R` and the fair-tier code `P` (in that order) classifies as `fair`,
not `poor`. -/
theorem c5_counterexample :
    classifyQuality ["R".data, "P".data] = Quality.fair ∧
    classifyQuality ["R".data, "P".data] ≠ Quality.poor := by
  decide

/-! ### Claim C1 -/

/-- The worst-tier-wins day quality rule as worded by the spec (§4.1):
`poor` if any constituent sample is `poor`, else `fair` if not all are
`good`, else `good`. -/
def worstTierSpec (qs : List Quality) : Quality :=
  if qs.any (· == Quality.poor) then Quality.poor
  else if !qs.all (· == Quality.good) then Quality.fair
  else Quality.good

/-- Claim C1, amended: the USGS raw processor's day quality follows the
spec's worst-tier-wins rule, but the water-data processor's daily conversion
never emits `poor`: any day with a non-`good` constituent (including a
`poor` one) is marked `fair`. -/
theorem c1_day_quality :
    (∀ qs : List Quality, dailyQualityU qs = worstTierSpec qs) ∧
    (∀ pts rec, rec ∈ convertToDailyDataW pts → rec.quality ≠ Quality.poor) := by
  constructor
  · intro qs
    unfold dailyQualityU worstTierSpec
    by_cases hall : qs.all (· == Quality.good)
    · by_cases hany : qs.any (· == Quality.poor)
      · exfalso
        obtain ⟨q, hq, hq2⟩ := List.any_eq_true.mp hany
        have hq3 := List.all_eq_true.mp hall q hq
        have e2 : q = Quality.poor := by simpa using hq2
        have e3 : q = Quality.good := by simpa using hq3
        rw [e2] at e3
        cases e3
      · simp [hall, hany]
    · simp [hall]
  · intro pts rec h
    unfold convertToDailyDataW at h
    rw [List.mem_insertionSort] at h
    obtain ⟨g, hg, hmk⟩ := List.mem_filterMap.mp h
    unfold mkDailyW at hmk
    by_cases he : (g.2.filterMap WPoint.value).isEmpty
    · simp [he] at hmk
    · simp only [he, Bool.false_eq_true, if_false, Option.some.injEq] at hmk
      rw [← hmk]
      dsimp only
      split_ifs <;> decide

/-- Witness for C1: a concrete daily record of the water-data conversion is
not `poor`. -/
theorem c1_day_quality_witness :
    ({ date := "2023-06-01".data, value := 1, quality := Quality.fair } : DailyRec).quality ≠
      Quality.poor :=
  c1_day_quality.2
    [{ date := "2023-06-01".data, value := some 1, quality := Quality.poor }]
    { date := "2023-06-01".data, value := 1, quality := Quality.fair }
    (by with_unfolding_all decide)

/-- Counterexample to C1 as stated: in the water-data processor a day whose
single constituent sample is `poor` aggregates to `fair`, not `poor`. -/
theorem c1_counterexample :
    convertToDailyDataW
        [{ date := "2023-06-01".data, value := some 1, quality := Quality.poor }] =
      [{ date := "2023-06-01".data, value := 1, quality := Quality.fair }] := by
  with_unfolding_all decide

/-! ### Claim C3 -/

/-- Claim C3, amended: the statistics summarizer rounds mean, min and max to
2 decimals for every parameter; this coincides with the parameter's daily
precision for the 2-decimal parameters
(temperature/flow/stage/dissolved_oxygen/turbidity/ph), but not for
conductivity, whose daily values use 0 decimals. -/
theorem c3_stats_rounding (p : Param) (locId : ℤ) (locName : PyStr) (year : ℤ)
    (yd : List DailyRec) (now : PyStr) (rec : AfcaRecord)
    (h : saveProcessedDataU p locId locName year yd now = some rec) :
    rec.statistics.mean =
      pyRound 2 ((yd.map DailyRec.value).sum / (yd.map DailyRec.value).length) ∧
    rec.statistics.min = pyRound 2 (pyMin (yd.map DailyRec.value)) ∧
    rec.statistics.max = pyRound 2 (pyMax (yd.map DailyRec.value)) ∧
    (precision p = 2 →
      rec.statistics.mean =
        pyRound (precision p)
          ((yd.map DailyRec.value).sum / (yd.map DailyRec.value).length)) := by
  unfold saveProcessedDataU at h
  by_cases he : (yd.map DailyRec.value).isEmpty
  · simp [he] at h
  · simp only [he, Bool.false_eq_true, if_false, Option.some.injEq] at h
    subst h
    refine ⟨rfl, rfl, rfl, ?_⟩
    intro h2
    rw [h2]
    rfl

/-- Witness for C3: a concretely persisted temperature record. -/
theorem c3_stats_rounding_witness :
    ((saveProcessedDataU Param.temperature 410 [] 2023 [c6SampleDay] []).getD
        defaultAfcaRecord).statistics.mean =
      pyRound 2 (([c6SampleDay].map DailyRec.value).sum /
        ([c6SampleDay].map DailyRec.value).length) ∧
    ((saveProcessedDataU Param.temperature 410 [] 2023 [c6SampleDay] []).getD
        defaultAfcaRecord).statistics.min =
      pyRound 2 (pyMin ([c6SampleDay].map DailyRec.value)) ∧
    ((saveProcessedDataU Param.temperature 410 [] 2023 [c6SampleDay] []).getD
        defaultAfcaRecord).statistics.max =
      pyRound 2 (pyMax ([c6SampleDay].map DailyRec.value)) ∧
    (precision Param.temperature = 2 →
      ((saveProcessedDataU Param.temperature 410 [] 2023 [c6SampleDay] []).getD
          defaultAfcaRecord).statistics.mean =
        pyRound (precision Param.temperature)
          (([c6SampleDay].map DailyRec.value).sum /
            ([c6SampleDay].map DailyRec.value).length)) :=
  c3_stats_rounding Param.temperature 410 [] 2023 [c6SampleDay] [] _
    (by with_unfolding_all decide)

/-- Counterexample to C3 as stated: a conductivity year with daily values 1
and 2 is persisted with `statistics.mean = 1.5`, while rounding the mean to
conductivity's 0-decimal daily precision would give 2. -/
theorem c3_counterexample :
    ((saveProcessedDataU Param.conductivity 410 [] 2023
        [{ date := "2023-06-01".data, value := 1, quality := Quality.good },
         { date := "2023-06-02".data, value := 2, quality := Quality.good }] []).getD
      defaultAfcaRecord).statistics.mean = 3 / 2 ∧
    pyRound (precision Param.conductivity) (3 / 2) = 2 ∧
    (3 / 2 : ℚ) ≠ 2 := by
  with_unfolding_all decide

/-! ### Claim C4 -/

/-- Claim C4, amended: every record assembled by the USGS paths carries
exactly the canonical schema keys, but the EPA water-quality path assembles
records without the `unit` and `statistics` keys. -/
theorem c4_record_fields :
    (∀ r : AfcaRecord, (afcaRecordFields r).map Prod.fst = schemaKeys) ∧
    (∀ e : EpaRecord, (epaRecordFields e).map Prod.fst =
      ["location_id", "location_name", "year", "parameter", "data", "source",
       "last_updated"]) :=
  ⟨fun _ => rfl, fun _ => rfl⟩

/-- A concrete EPA record for the C4 counterexample. -/
def c4EpaSample : EpaRecord := mkEpaRecord 410 [] 2023 [] []

/-- Counterexample to C4 as stated: the EPA water-quality record carries
neither a `unit` nor a `statistics` key. -/
theorem c4_counterexample :
    "unit" ∉ (epaRecordFields c4EpaSample).map Prod.fst ∧
    "statistics" ∉ (epaRecordFields c4EpaSample).map Prod.fst := by
  decide

/-! ### Claim C8 -/

/-- A raw sample survives the sentinel/empty/parse filter of the USGS
conversion loop. -/
def validRawU (f : PyStr → Option ℚ) (v : RawSample) : Bool :=
  !(v.value == "-999999".data || v.value == []) && (f v.value).isSome

theorem foldl_filter_skip {σ α : Type} (step : σ → α → σ) (pr : α → Bool)
    (h : ∀ acc v, pr v = false → step acc v = acc) :
    ∀ (l : List α) (acc : σ), l.foldl step acc = (l.filter pr).foldl step acc := by
  intro l
  induction l with
  | nil => intro acc; rfl
  | cons v rest ih =>
    intro acc
    by_cases hv : pr v
    · simp [List.filter_cons, hv, ih]
    · simp only [Bool.not_eq_true] at hv
      simp [List.filter_cons, hv, h acc v hv, ih]

theorem groupStepU_skip (f : PyStr → Option ℚ) (acc : List (PyStr × List DayEntry))
    (v : RawSample) (h : validRawU f v = false) : groupStepU f acc v = acc := by
  unfold groupStepU
  unfold validRawU at h
  by_cases h1 : (v.value == "-999999".data || v.value == []) = true
  · rw [if_pos h1]
  · have h1f : (v.value == "-999999".data || v.value == []) = false := by
      simpa using h1
    rw [if_neg h1]
    rw [h1f, Bool.not_false, Bool.true_and] at h
    cases hf : f v.value with
    | none => rfl
    | some q => rw [hf] at h; cases h

/-- Claim C8: samples whose raw value string is the `-999999` sentinel or
empty, or whose value fails numeric parsing, are discarded before grouping:
the USGS daily conversion is unchanged by pre-filtering to the valid
samples, the validity predicate rejects exactly the sentinel/empty/
unparsable samples, and the water-data year grouping likewise ignores
points whose extracted value is `None` (the sentinel). -/
theorem c8_sentinel_discarded :
    (∀ f values p, convertToDailyDataU f values p =
        convertToDailyDataU f (values.filter (validRawU f)) p) ∧
    (∀ f v, v.value = "-999999".data ∨ v.value = [] ∨ f v.value = none →
        validRawU f v = false) ∧
    (∀ pts, groupByYearW pts =
        groupByYearW (pts.filter (fun p => p.value.isSome))) := by
  refine ⟨?_, ?_, ?_⟩
  · intro f values p
    unfold convertToDailyDataU
    have hg : groupValidU f values = groupValidU f (values.filter (validRawU f)) := by
      unfold groupValidU
      exact foldl_filter_skip (groupStepU f) (validRawU f) (groupStepU_skip f) values []
    rw [hg]
  · intro f v h
    unfold validRawU
    rcases h with h | h | h
    · rw [h]; simp
    · rw [h]; simp
    · simp [h]
  · intro pts
    unfold groupByYearW
    exact foldl_filter_skip
      (fun acc p => if p.value.isSome then appendAt (p.date.take 4) p acc else acc)
      (fun p => p.value.isSome)
      (fun acc v hv => by
        have hv2 : v.value.isSome = false := hv
        simp [hv2]) pts []

/-- Witness for C8: the sentinel string, the empty string, and an
unparsable string are all rejected by the validity predicate (with the
parse oracle that reads decimal numerals). -/
theorem c8_sentinel_discarded_witness :
    validRawU (fun s => (pyParseNat s).map (fun n => (n : ℚ)))
      { dateTime := "2023-06-01T00:00:00".data, value := "-999999".data,
        qualifiers := [] } = false :=
  c8_sentinel_discarded.2.1 (fun s => (pyParseNat s).map (fun n => (n : ℚ)))
    { dateTime := "2023-06-01T00:00:00".data, value := "-999999".data,
      qualifiers := [] }
    (Or.inl rfl)

/-! ### Claim C9: grouping lemmas -/

theorem appendAt_keys {β : Type} (d : PyStr) (e : β) :
    ∀ l : List (PyStr × List β),
      (appendAt d e l).map Prod.fst =
        if d ∈ l.map Prod.fst then l.map Prod.fst else l.map Prod.fst ++ [d]
  | [] => by simp [appendAt]
  | (k, es) :: rest => by
    by_cases hk : k = d
    · subst hk
      simp [appendAt]
    · by_cases hd : d ∈ rest.map Prod.fst
      · simp [appendAt, hk, appendAt_keys d e rest, hd, Ne.symm hk]
      · simp [appendAt, hk, appendAt_keys d e rest, hd, Ne.symm hk]

theorem appendAt_keys_nodup {β : Type} (d : PyStr) (e : β)
    (l : List (PyStr × List β)) (h : (l.map Prod.fst).Nodup) :
    ((appendAt d e l).map Prod.fst).Nodup := by
  rw [appendAt_keys]
  split_ifs with hd
  · exact h
  · simp [List.nodup_append, h, hd]

theorem appendAt_keys_mem {β : Type} (d : PyStr) (e : β)
    (l : List (PyStr × List β)) (x : PyStr) :
    (x ∈ (appendAt d e l).map Prod.fst ↔ x ∈ l.map Prod.fst ∨ x = d) := by
  rw [appendAt_keys]
  split_ifs with hd
  · constructor
    · exact Or.inl
    · rintro (h | rfl)
      · exact h
      · exact hd
  · simp

theorem appendAt_snd_nonempty {β : Type} (d : PyStr) (e : β) :
    ∀ l : List (PyStr × List β), (∀ kv ∈ l, kv.2 ≠ []) →
      ∀ kv ∈ appendAt d e l, kv.2 ≠ []
  | [], _ => by
    intro kv hkv
    simp only [appendAt, List.mem_singleton] at hkv
    subst hkv
    simp
  | (k, es) :: rest, h => by
    intro kv hkv
    simp only [appendAt] at hkv
    by_cases hk : k = d
    · simp only [hk, if_true] at hkv
      rcases List.mem_cons.mp hkv with rfl | hmem
      · simp
      · exact h kv (List.mem_cons_of_mem _ hmem)
    · simp only [hk, if_false] at hkv
      rcases List.mem_cons.mp hkv with rfl | hmem
      · exact h (k, es) (List.mem_cons_self _ _)
      · exact appendAt_snd_nonempty d e rest
          (fun kv hkv => h kv (List.mem_cons_of_mem _ hkv)) kv hmem

theorem groupStepU_valid (f : PyStr → Option ℚ) (acc : List (PyStr × List DayEntry))
    (v : RawSample) (h : validRawU f v = true) :
    ∃ e, groupStepU f acc v = appendAt (v.dateTime.take 10) e acc := by
  unfold validRawU at h
  rw [Bool.and_eq_true, Bool.not_eq_true'] at h
  obtain ⟨h1, h2⟩ := h
  unfold groupStepU
  rw [h1]
  cases hf : f v.value with
  | none => rw [hf] at h2; cases h2
  | some q =>
    exact ⟨{ value := q, quality := classifyQuality v.qualifiers,
             datetime := v.dateTime }, by simp⟩

theorem foldU_keys_nodup (f : PyStr → Option ℚ) :
    ∀ (values : List RawSample) (acc : List (PyStr × List DayEntry)),
      (acc.map Prod.fst).Nodup →
      ((values.foldl (groupStepU f) acc).map Prod.fst).Nodup
  | [], _, h => h
  | v :: rest, acc, h => by
    rw [List.foldl_cons]
    apply foldU_keys_nodup f rest
    by_cases hv : validRawU f v
    · obtain ⟨e, he⟩ := groupStepU_valid f acc v hv
      rw [he]
      exact appendAt_keys_nodup _ e acc h
    · rw [groupStepU_skip f acc v (by simpa using hv)]
      exact h

theorem foldU_keys_mem (f : PyStr → Option ℚ) :
    ∀ (values : List RawSample) (acc : List (PyStr × List DayEntry)) (x : PyStr),
      (x ∈ (values.foldl (groupStepU f) acc).map Prod.fst ↔
        x ∈ acc.map Prod.fst ∨
          ∃ v ∈ values, validRawU f v = true ∧ v.dateTime.take 10 = x)
  | [], acc, x => by simp
  | v :: rest, acc, x => by
    rw [List.foldl_cons, foldU_keys_mem f rest _ x]
    by_cases hv : validRawU f v
    · obtain ⟨e, he⟩ := groupStepU_valid f acc v hv
      rw [he]
      rw [appendAt_keys_mem]
      simp only [List.mem_cons, hv, true_and]
      constructor
      · rintro ((h | rfl) | h)
        · exact Or.inl h
        · exact Or.inr ⟨v, Or.inl rfl, hv, rfl⟩
        · obtain ⟨w, hw, hw2⟩ := h
          exact Or.inr ⟨w, Or.inr hw, hw2⟩
      · rintro (h | ⟨w, hw | hw, hw2⟩)
        · exact Or.inl (Or.inl h)
        · subst hw
          exact Or.inl (Or.inr hw2.2.symm)
        · exact Or.inr ⟨w, hw, hw2⟩
    · rw [groupStepU_skip f acc v (by simpa using hv)]
      have hvf : validRawU f v = false := by simpa using hv
      constructor
      · rintro (h | h)
        · exact Or.inl h
        · obtain ⟨w, hw, hw2⟩ := h
          exact Or.inr ⟨w, List.mem_cons_of_mem _ hw, hw2⟩
      · rintro (h | ⟨w, hw, hw2⟩)
        · exact Or.inl h
        · rcases List.mem_cons.mp hw with rfl | hw3
          · rw [hvf] at hw2; cases hw2.1
          · exact Or.inr ⟨w, hw3, hw2⟩

theorem foldU_groups_nonempty (f : PyStr → Option ℚ) :
    ∀ (values : List RawSample) (acc : List (PyStr × List DayEntry)),
      (∀ kv ∈ acc, kv.2 ≠ []) →
      ∀ kv ∈ values.foldl (groupStepU f) acc, kv.2 ≠ []
  | [], _, h => h
  | v :: rest, acc, h => by
    rw [List.foldl_cons]
    apply foldU_groups_nonempty f rest
    by_cases hv : validRawU f v
    · obtain ⟨e, he⟩ := groupStepU_valid f acc v hv
      rw [he]
      exact appendAt_snd_nonempty _ e acc h
    · rw [groupStepU_skip f acc v (by simpa using hv)]
      exact h

/-- Lookup of a group in the association list (proof helper). -/
def groupOf {β : Type} : List (PyStr × List β) → PyStr → List β
  | [], _ => []
  | (k, es) :: rest, d => if k = d then es else groupOf rest d

theorem groupOf_appendAt_self {β : Type} (d : PyStr) (e : β) :
    ∀ l, groupOf (appendAt d e l) d = groupOf l d ++ [e]
  | [] => by simp [appendAt, groupOf]
  | (k, es) :: rest => by
    by_cases hk : k = d
    · subst hk
      simp [appendAt, groupOf]
    · simp [appendAt, groupOf, hk, groupOf_appendAt_self d e rest]

theorem groupOf_appendAt_ne {β : Type} (d : PyStr) (e : β) (x : PyStr) (h : x ≠ d) :
    ∀ l, groupOf (appendAt d e l) x = groupOf l x
  | [] => by simp [appendAt, groupOf, Ne.symm h]
  | (k, es) :: rest => by
    by_cases hk : k = d
    · subst hk
      simp [appendAt, groupOf, Ne.symm h, groupOf_appendAt_ne k e x h rest]
    · simp [appendAt, groupOf, hk, groupOf_appendAt_ne d e x h rest]

theorem mem_groups_groupOf {β : Type} :
    ∀ (l : List (PyStr × List β)), (l.map Prod.fst).Nodup →
      ∀ k g, (k, g) ∈ l → groupOf l k = g
  | [], _, k, g, h => by cases h
  | (k0, g0) :: rest, hnd, k, g, h => by
    simp only [List.map_cons, List.nodup_cons] at hnd
    rcases List.mem_cons.mp h with heq | hmem
    · obtain ⟨rfl, rfl⟩ := Prod.mk.injEq .. ▸ And.intro (congrArg Prod.fst heq) (congrArg Prod.snd heq)
      simp [groupOf]
    · have hk : k0 ≠ k := by
        intro e
        subst e
        exact hnd.1 (List.mem_map_of_mem Prod.fst hmem)
      simp only [groupOf, hk, if_false]
      exact mem_groups_groupOf rest hnd.2 k g hmem

theorem groupOf_mem {β : Type} :
    ∀ (l : List (PyStr × List β)) (d : PyStr), groupOf l d ≠ [] → (d, groupOf l d) ∈ l
  | [], d, h => absurd rfl h
  | (k, es) :: rest, d, h => by
    by_cases hk : k = d
    · subst hk
      simp [groupOf]
    · simp only [groupOf, hk, if_false] at h ⊢
      exact List.mem_cons_of_mem _ (groupOf_mem rest d h)

theorem foldW_groupOf :
    ∀ (pts : List WPoint) (acc : List (PyStr × List WPoint)) (d : PyStr),
      groupOf (pts.foldl (fun acc p => appendAt p.date p acc) acc) d =
        groupOf acc d ++ pts.filter (fun p => p.date == d)
  | [], acc, d => by simp
  | p :: rest, acc, d => by
    rw [List.foldl_cons, foldW_groupOf rest _ d]
    by_cases hd : p.date = d
    · subst hd
      simp [List.filter_cons, groupOf_appendAt_self]
    · simp [List.filter_cons, hd, groupOf_appendAt_ne p.date p d (Ne.symm hd)]

theorem foldW_keys_nodup :
    ∀ (pts : List WPoint) (acc : List (PyStr × List WPoint)),
      (acc.map Prod.fst).Nodup →
      ((pts.foldl (fun acc p => appendAt p.date p acc) acc).map Prod.fst).Nodup
  | [], _, h => h
  | p :: rest, acc, h => by
    rw [List.foldl_cons]
    exact foldW_keys_nodup rest _ (appendAt_keys_nodup _ _ _ h)

theorem mkDailyW_date (k : PyStr) (g : List WPoint) (rec : DailyRec)
    (h : mkDailyW k g = some rec) :
    rec.date = k ∧ g.filterMap WPoint.value ≠ [] := by
  unfold mkDailyW at h
  by_cases he : (g.filterMap WPoint.value).isEmpty
  · simp [he] at h
  · simp only [he, Bool.false_eq_true, if_false, Option.some.injEq] at h
    refine ⟨by rw [← h], by simpa [List.isEmpty_iff] using he⟩

theorem mkDailyW_some (k : PyStr) (g : List WPoint)
    (h : g.filterMap WPoint.value ≠ []) :
    ∃ rec, mkDailyW k g = some rec ∧ rec.date = k := by
  unfold mkDailyW
  have he : (g.filterMap WPoint.value).isEmpty = false := by
    simpa [List.isEmpty_iff] using h
  simp only [he, Bool.false_eq_true, if_false]
  exact ⟨_, rfl, rfl⟩

theorem mapDate_filterMapW_sublist :
    ∀ groups : List (PyStr × List WPoint),
      ((groups.filterMap (fun g => mkDailyW g.1 g.2)).map DailyRec.date).Sublist
        (groups.map Prod.fst)
  | [] => by simp
  | g :: rest => by
    cases h : mkDailyW g.1 g.2 with
    | none =>
      simp only [List.filterMap_cons, h, List.map_cons]
      exact (mapDate_filterMapW_sublist rest).cons g.1
    | some rec =>
      have hd := (mkDailyW_date g.1 g.2 rec h).1
      simp only [List.filterMap_cons, h, List.map_cons]
      rw [hd]
      exact (mapDate_filterMapW_sublist rest).cons₂ g.1

theorem sort_dates_perm (l : List DailyRec) :
    List.Perm ((l.insertionSort dRecLe).map DailyRec.date) (l.map DailyRec.date) :=
  (List.perm_insertionSort dRecLe l).map DailyRec.date

theorem sort_dates_sorted_le (l : List DailyRec) :
    ((l.insertionSort dRecLe).map DailyRec.date).Sorted (· ≤ ·) :=
  List.Pairwise.map DailyRec.date (fun _ _ h => h)
    (List.sorted_insertionSort dRecLe l)

theorem sort_dates_sorted_lt (l : List DailyRec)
    (h : (l.map DailyRec.date).Nodup) :
    ((l.insertionSort dRecLe).map DailyRec.date).Sorted (· < ·) :=
  (sort_dates_sorted_le l).lt_of_le ((sort_dates_perm l).nodup_iff.mpr h)

theorem groupValidU_keys_nodup (f : PyStr → Option ℚ) (values : List RawSample) :
    ((groupValidU f values).map Prod.fst).Nodup :=
  foldU_keys_nodup f values [] (by simp)

theorem groupValidU_filter_id (f : PyStr → Option ℚ) (values : List RawSample) :
    (groupValidU f values).filter (fun g => !g.2.isEmpty) = groupValidU f values :=
  List.filter_eq_self.mpr (fun g hg => by
    have h2 := foldU_groups_nonempty f values [] (by simp) g hg
    simpa [List.isEmpty_iff] using h2)

theorem convertU_unsorted_dates (f : PyStr → Option ℚ) (values : List RawSample)
    (p : Param) :
    (((groupValidU f values).filter (fun g => !g.2.isEmpty)).map
        (fun g => mkDailyU p g.1 g.2)).map DailyRec.date =
      ((groupValidU f values).filter (fun g => !g.2.isEmpty)).map Prod.fst := by
  rw [List.map_map]
  rfl

/-- Claim C9: the daily aggregation of either processor yields an empty
output on empty input, output dates that are strictly ascending (hence
pairwise distinct), and exactly one record per calendar date occurring among
the valid input samples. -/
theorem c9_dates_ascending :
    (∀ f p, convertToDailyDataU f [] p = []) ∧
    (convertToDailyDataW [] = []) ∧
    (∀ f values p,
      ((convertToDailyDataU f values p).map DailyRec.date).Sorted (· < ·)) ∧
    (∀ pts, ((convertToDailyDataW pts).map DailyRec.date).Sorted (· < ·)) ∧
    (∀ f values p x,
      x ∈ (convertToDailyDataU f values p).map DailyRec.date ↔
        ∃ v ∈ values, validRawU f v = true ∧ v.dateTime.take 10 = x) ∧
    (∀ pts x,
      x ∈ (convertToDailyDataW pts).map DailyRec.date ↔
        ∃ pt ∈ pts, pt.value.isSome = true ∧ pt.date = x) := by
  refine ⟨fun f p => rfl, rfl, ?_, ?_, ?_, ?_⟩
  · intro f values p
    unfold convertToDailyDataU
    apply sort_dates_sorted_lt
    rw [convertU_unsorted_dates]
    exact List.Nodup.sublist ((List.filter_sublist _).map Prod.fst)
      (groupValidU_keys_nodup f values)
  · intro pts
    unfold convertToDailyDataW
    apply sort_dates_sorted_lt
    exact List.Nodup.sublist (mapDate_filterMapW_sublist _)
      (foldW_keys_nodup pts [] (by simp))
  · intro f values p x
    unfold convertToDailyDataU
    rw [(sort_dates_perm _).mem_iff, convertU_unsorted_dates f values p,
      groupValidU_filter_id f values]
    have h := foldU_keys_mem f values [] x
    simpa using h
  · intro pts x
    unfold convertToDailyDataW
    constructor
    · intro hx
      rw [(sort_dates_perm _).mem_iff] at hx
      obtain ⟨rec, hrec, hdate⟩ := List.mem_map.mp hx
      obtain ⟨g, hg, hmk⟩ := List.mem_filterMap.mp hrec
      obtain ⟨hd, hvals⟩ := mkDailyW_date g.1 g.2 rec hmk
      have hkeysnd : ((groupByDateW pts).map Prod.fst).Nodup :=
        foldW_keys_nodup pts [] (by simp)
      have hgof : groupOf (groupByDateW pts) g.1 = g.2 :=
        mem_groups_groupOf _ hkeysnd g.1 g.2 (by simpa using hg)
      have hcontent : groupOf (groupByDateW pts) g.1 =
          pts.filter (fun p => p.date == g.1) := by
        simpa using foldW_groupOf pts [] g.1
      obtain ⟨q, hq⟩ := List.exists_mem_of_ne_nil _ hvals
      obtain ⟨pt, hpt, hptv⟩ := List.mem_filterMap.mp hq
      have hpt2 : pt ∈ pts.filter (fun p => p.date == g.1) := by
        rw [← hcontent, hgof]
        exact hpt
      obtain ⟨hptmem, hptdate⟩ := List.mem_filter.mp hpt2
      refine ⟨pt, hptmem, by simp [hptv], ?_⟩
      have hpd : pt.date = g.1 := by simpa using hptdate
      rw [hpd, ← hd, hdate]
    · rintro ⟨pt, hpt, hsome, hdate⟩
      have hcontent : groupOf (groupByDateW pts) x =
          pts.filter (fun p => p.date == x) := by
        simpa using foldW_groupOf pts [] x
      have hptin : pt ∈ groupOf (groupByDateW pts) x := by
        rw [hcontent]
        exact List.mem_filter.mpr ⟨hpt, by simp [hdate]⟩
      have hne : groupOf (groupByDateW pts) x ≠ [] := List.ne_nil_of_mem hptin
      have hpair := groupOf_mem _ x hne
      obtain ⟨q, hq⟩ := Option.isSome_iff_exists.mp hsome
      have hvne : (groupOf (groupByDateW pts) x).filterMap WPoint.value ≠ [] :=
        List.ne_nil_of_mem (List.mem_filterMap.mpr ⟨pt, hptin, by rw [hq]⟩)
      obtain ⟨rec, hmk, hrdate⟩ := mkDailyW_some x _ hvne
      have hrec : rec ∈ (groupByDateW pts).filterMap (fun g => mkDailyW g.1 g.2) :=
        List.mem_filterMap.mpr ⟨(x, groupOf (groupByDateW pts) x), hpair, hmk⟩
      rw [(sort_dates_perm _).mem_iff]
      exact List.mem_map.mpr ⟨rec, hrec, hrdate⟩

/-! ### Claim C7 -/

/-- Claim C7: the manifest rebuild is idempotent — both processors' scans
rebuild the `organized` and `statistics` blocks purely from the data
directories, so a second run over the same unchanged listings produces
identical blocks. -/
theorem c7_manifest_idempotent (m : Manifest) (d : DataDirs) (t1 t2 : PyStr) :
    ((updateManifestU (updateManifestU m d t1) d t2).organized =
        (updateManifestU m d t1).organized ∧
      (updateManifestU (updateManifestU m d t1) d t2).statistics =
        (updateManifestU m d t1).statistics) ∧
    ((updateManifestW (updateManifestW m d t1) d t2).organized =
        (updateManifestW m d t1).organized ∧
      (updateManifestW (updateManifestW m d t1) d t2).statistics =
        (updateManifestW m d t1).statistics) :=
  ⟨⟨rfl, rfl⟩, ⟨rfl, rfl⟩⟩

/-! ### Claim C10 -/

/-- A temperature record with all basic fields but no `data` array. -/
def c10TempRecNoData : VObj :=
  [("location_id", .vint 410),
   ("location_name", .vstr "Kenai River".data),
   ("year", .vint 2023),
   ("parameter", .vstr "temperature".data),
   ("source", .vstr "USGS".data),
   ("last_updated", .vstr "2024-01-01T00:00:00".data)]

/-- A water-quality record whose single day has pH = 11. -/
def c10QualityRecPh11 : VObj :=
  [("location_id", .vint 410),
   ("location_name", .vstr "Kenai River".data),
   ("year", .vint 2023),
   ("parameter", .vstr "water_quality".data),
   ("source", .vstr "EPA".data),
   ("last_updated", .vstr "2024-01-01T00:00:00".data),
   ("data", .varr [.vobj [("date", .vstr "2023-06-01".data), ("ph", .vnum 11)]])]

/-- Claim C10: a time-series record lacking the `data` field is counted
invalid with a recorded schema (`missing_data`) error; a quality record with
pH = 11 yields only a range warning and is counted valid; and the validator
never mutates the data files (it only writes its report). -/
theorem c10_validator :
    (validateFile "03-temperature".data
        "./data/03-temperature/location-410-2023.json".data
        c10TempRecNoData emptyResults).files_invalid = 1 ∧
    (validateFile "03-temperature".data
        "./data/03-temperature/location-410-2023.json".data
        c10TempRecNoData emptyResults).files_valid = 0 ∧
    (validateFile "03-temperature".data
        "./data/03-temperature/location-410-2023.json".data
        c10TempRecNoData emptyResults).errors.map Prod.snd = ["missing_data"] ∧
    (validateFile "04-quality".data
        "./data/04-quality/location-410-2023.json".data
        c10QualityRecPh11 emptyResults).files_valid = 1 ∧
    (validateFile "04-quality".data
        "./data/04-quality/location-410-2023.json".data
        c10QualityRecPh11 emptyResults).files_invalid = 0 ∧
    (validateFile "04-quality".data
        "./data/04-quality/location-410-2023.json".data
        c10QualityRecPh11 emptyResults).errors = [] ∧
    (validateFile "04-quality".data
        "./data/04-quality/location-410-2023.json".data
        c10QualityRecPh11 emptyResults).warnings.map Prod.snd = ["unusual_value"] ∧
    (∀ s : ValidatorStore, (runValidator s).files = s.files) := by
  refine ⟨?_, ?_, ?_, ?_, ?_, ?_, ?_, fun s => rfl⟩ <;> with_unfolding_all decide

/-! ### Claim C2: string lemmas -/

theorem pyStartsWith_append (p r : PyStr) : pyStartsWith (p ++ r) p = true := by
  induction p with
  | nil => cases r <;> rfl
  | cons c t ih => simp [pyStartsWith, ih]

theorem pyStartsWith_self (p : PyStr) : pyStartsWith p p = true := by
  have h := pyStartsWith_append p []
  rwa [List.append_nil] at h

theorem pyContains_append (p r : PyStr) : pyContains p (p ++ r) = true := by
  cases p with
  | nil =>
    cases r with
    | nil => rfl
    | cons c t => rfl
  | cons c t =>
    have hstep : pyContains (c :: t) (c :: (t ++ r)) =
        (pyStartsWith (c :: (t ++ r)) (c :: t) || pyContains (c :: t) (t ++ r)) := rfl
    rw [List.cons_append, hstep,
      show c :: (t ++ r) = (c :: t) ++ r from rfl, pyStartsWith_append]
    simp

theorem pyEndsWith_append (a pat : PyStr) : pyEndsWith (a ++ pat) pat = true := by
  unfold pyEndsWith
  rw [List.reverse_append]
  exact pyStartsWith_append _ _

theorem removeAllFuel_nil_input (pat : PyStr) (f : Nat) :
    removeAllFuel pat f [] = [] := by
  cases f <;> rfl

theorem removeAllFuel_boundary (p0 : Char) (ps : PyStr) :
    ∀ (a : PyStr) (f : Nat), (∀ c ∈ a, c ≠ p0) →
      (a ++ p0 :: ps).length ≤ f →
      removeAllFuel (p0 :: ps) f (a ++ p0 :: ps) = a
  | [], f, _, hf => by
    match f, hf with
    | g + 1, _ =>
      show removeAllFuel (p0 :: ps) (g + 1) (p0 :: ps) = []
      unfold removeAllFuel
      rw [pyStartsWith_self]
      simp only [List.isEmpty_cons, Bool.not_false, Bool.and_true, Bool.and_self, if_true]
      rw [List.drop_length]
      exact removeAllFuel_nil_input _ _
  | c :: a, f, h, hf => by
    match f, hf with
    | g + 1, hf =>
      show removeAllFuel (p0 :: ps) (g + 1) (c :: (a ++ p0 :: ps)) = c :: a
      unfold removeAllFuel
      have hc : c ≠ p0 := h c (List.mem_cons_self c a)
      have hsw : pyStartsWith (c :: (a ++ p0 :: ps)) (p0 :: ps) = false := by
        simp [pyStartsWith, hc]
      rw [hsw]
      simp only [Bool.and_false, Bool.false_eq_true, if_false]
      have hlen : (a ++ p0 :: ps).length ≤ g := by
        simpa using Nat.le_of_succ_le_succ hf
      rw [removeAllFuel_boundary p0 ps a g
        (fun x hx => h x (List.mem_cons_of_mem _ hx)) hlen]

theorem pyRemoveAll_boundary (a : PyStr) (p0 : Char) (ps : PyStr)
    (h : ∀ c ∈ a, c ≠ p0) :
    pyRemoveAll (a ++ p0 :: ps) (p0 :: ps) = a := by
  unfold pyRemoveAll
  exact removeAllFuel_boundary p0 ps a _ h (le_refl _)

theorem splitDash_noDash (l : PyStr) (h : ∀ c ∈ l, c ≠ '-') :
    splitDash l = [l] := by
  induction l with
  | nil => rfl
  | cons c t ih =>
    have hc : c ≠ '-' := h c (List.mem_cons_self c t)
    have ht := ih (fun x hx => h x (List.mem_cons_of_mem _ hx))
    simp [splitDash, hc, ht]

theorem splitDash_append (l r : PyStr) (h : ∀ c ∈ l, c ≠ '-') :
    splitDash (l ++ '-' :: r) = l :: splitDash r := by
  induction l with
  | nil => simp [splitDash]
  | cons c t ih =>
    have hc : c ≠ '-' := h c (List.mem_cons_self c t)
    have ht := ih (fun x hx => h x (List.mem_cons_of_mem _ hx))
    simp [splitDash, ht, hc]

/-! ### Claim C2: decimal numeral round trip -/

theorem digitChar_props (d : Nat) (h : d < 10) :
    (Nat.digitChar d).isDigit = true ∧ digitVal (Nat.digitChar d) = d := by
  interval_cases d <;> exact ⟨by decide, by decide⟩

theorem natReprAux_all_digits :
    ∀ (f n : Nat), ∀ c ∈ natReprAux f n, c.isDigit = true
  | 0, _ => by intro c hc; cases hc
  | _ + 1, 0 => by intro c hc; cases hc
  | f + 1, n + 1 => by
    intro c hc
    rw [natReprAux] at hc
    rcases List.mem_append.mp hc with hc | hc
    · exact natReprAux_all_digits f ((n + 1) / 10) c hc
    · rw [List.mem_singleton.mp hc]
      exact (digitChar_props _ (Nat.mod_lt _ (by omega))).1

theorem natRepr_all_digits (n : Nat) : ∀ c ∈ natRepr n, c.isDigit = true := by
  unfold natRepr
  split_ifs
  · intro c hc
    rw [List.mem_singleton.mp hc]
    decide
  · exact natReprAux_all_digits n n

theorem isDigit_ne (c : Char) (h : c.isDigit = true) : c ≠ '.' ∧ c ≠ '-' := by
  constructor <;> rintro rfl <;> exact absurd h (by decide)

theorem foldl_natReprAux :
    ∀ (f n : Nat), n ≤ f → ∀ a : Nat,
      (natReprAux f n).foldl (fun acc c => acc * 10 + digitVal c) a =
        a * 10 ^ (natReprAux f n).length + n
  | 0, n, hf => by
    intro a
    have hn : n = 0 := Nat.le_zero.mp hf
    subst hn
    simp [natReprAux]
  | f + 1, 0, _ => by intro a; simp [natReprAux]
  | f + 1, n + 1, hf => by
    intro a
    rw [natReprAux]
    have hdiv : (n + 1) / 10 ≤ f :=
      Nat.le_of_lt_succ (Nat.lt_of_lt_of_le (Nat.div_lt_self (by omega) (by omega)) hf)
    rw [List.foldl_append]
    rw [foldl_natReprAux f ((n + 1) / 10) hdiv a]
    simp only [List.foldl_cons, List.foldl_nil, List.length_append,
      List.length_singleton]
    rw [(digitChar_props _ (Nat.mod_lt _ (by omega))).2]
    have hx : 10 * ((n + 1) / 10) + (n + 1) % 10 = n + 1 := Nat.div_add_mod (n + 1) 10
    set q := (n + 1) / 10 with hq
    set r2 := (n + 1) % 10 with hr
    rw [← hx, pow_succ]
    ring

theorem natReprAux_ne_nil (n : Nat) (h : 0 < n) : natReprAux n n ≠ [] := by
  match n, h with
  | m + 1, _ =>
    rw [natReprAux]
    simp

theorem pyParseNat_natRepr (n : Nat) : pyParseNat (natRepr n) = some n := by
  by_cases h0 : n = 0
  · subst h0
    decide
  · unfold natRepr
    rw [if_neg h0]
    unfold pyParseNat
    have hne : (natReprAux n n).isEmpty = false := by
      simpa [List.isEmpty_iff] using natReprAux_ne_nil n (Nat.pos_of_ne_zero h0)
    have hdig : (natReprAux n n).all Char.isDigit = true :=
      List.all_eq_true.mpr (fun c hc => natReprAux_all_digits n n c hc)
    rw [hne, hdig]
    simp only [Bool.not_false, Bool.and_self, if_true, Option.some.injEq]
    rw [foldl_natReprAux n n (le_refl n) 0]
    simp

/-! ### Claim C2: canonical file names -/

/-- The canonical time-series file name `location-<id>-<year>.json` as
written by the record writers. -/
def mkTsName (i y : Nat) : PyStr :=
  "location-".data ++ natRepr i ++ '-' :: (natRepr y ++ ".json".data)

theorem mkTsName_decomp (i y : Nat) :
    mkTsName i y =
      ("location".data ++ '-' :: (natRepr i ++ '-' :: natRepr y)) ++
        ('.' :: "json".data) := by
  unfold mkTsName
  simp [List.append_assoc]

theorem removeJson_mkTsName (i y : Nat) :
    pyRemoveAll (mkTsName i y) ".json".data =
      "location".data ++ '-' :: (natRepr i ++ '-' :: natRepr y) := by
  rw [mkTsName_decomp,
    show (".json".data : PyStr) = '.' :: "json".data from rfl]
  apply pyRemoveAll_boundary
  intro c hc
  rcases List.mem_append.mp hc with hc | hc
  · have hall : ∀ x ∈ ("location".data : PyStr), x ≠ '.' := by decide
    exact hall c hc
  · rcases List.mem_cons.mp hc with rfl | hc
    · decide
    · rcases List.mem_append.mp hc with hc | hc
      · exact (isDigit_ne c (natRepr_all_digits i c hc)).1
      · rcases List.mem_cons.mp hc with rfl | hc
        · decide
        · exact (isDigit_ne c (natRepr_all_digits y c hc)).1

theorem splitDash_mkTsName (i y : Nat) :
    splitDash (pyRemoveAll (mkTsName i y) ".json".data) =
      ["location".data, natRepr i, natRepr y] := by
  rw [removeJson_mkTsName]
  rw [splitDash_append "location".data _ (by decide)]
  rw [splitDash_append (natRepr i) _
    (fun c hc => (isDigit_ne c (natRepr_all_digits i c hc)).2)]
  rw [splitDash_noDash (natRepr y)
    (fun c hc => (isDigit_ne c (natRepr_all_digits y c hc)).2)]

theorem pyContains_mkTsName (i y : Nat) :
    pyContains "location-".data (mkTsName i y) = true := by
  unfold mkTsName
  exact pyContains_append _ _

theorem processFileU_canonical (dn : DirName) (st : ScanState) (i y : Nat) :
    processFileU dn st (mkTsName i y) = scanSuccess dn st i y := by
  unfold processFileU
  rw [pyContains_mkTsName, splitDash_mkTsName]
  simp [pyParseNat_natRepr]

theorem processFileW_canonical (dn : DirName) (st : ScanState) (i y : Nat) :
    processFileW dn st (mkTsName i y) = scanSuccess dn st i y := by
  unfold processFileW
  rw [pyContains_mkTsName, splitDash_mkTsName]
  simp [pyParseNat_natRepr]

theorem tsPath_eq (dn : DirName) (i y : Nat) :
    tsPath dn i y = "data/".data ++ dirString dn ++ '/' :: mkTsName i y := by
  unfold tsPath mkTsName
  rw [show ("/location-".data : PyStr) = '/' :: "location-".data from rfl]
  simp [List.append_assoc]

/-! ### Claim C2: the organized-paths invariant -/

/-- All per-year category paths of an entry point at files present in the
matching scanned directory. -/
def entryPathsOk (d : DataDirs) (e : ManifestEntry) : Prop :=
  (∀ kv ∈ e.temperature, kv.2 ∈ dirPaths d DirName.temperature) ∧
  (∀ kv ∈ e.flow, kv.2 ∈ dirPaths d DirName.flow) ∧
  (∀ kv ∈ e.quality, kv.2 ∈ dirPaths d DirName.quality) ∧
  (∀ kv ∈ e.stage, kv.2 ∈ dirPaths d DirName.stage)

/-- All entries of an organized index satisfy `entryPathsOk`. -/
def orgOk (d : DataDirs) (org : List (PyStr × ManifestEntry)) : Prop :=
  ∀ kv ∈ org, entryPathsOk d kv.2

theorem setKey_mem {β : Type} (k : PyStr) (v : β) :
    ∀ (l : List (PyStr × β)) (kv), kv ∈ setKey k v l → kv ∈ l ∨ kv = (k, v)
  | [], kv, h => by
    simp only [setKey, List.mem_singleton] at h
    exact Or.inr h
  | (k0, v0) :: rest, kv, h => by
    simp only [setKey] at h
    split_ifs at h with hk
    · rcases List.mem_cons.mp h with rfl | hmem
      · subst hk
        exact Or.inr rfl
      · exact Or.inl (List.mem_cons_of_mem _ hmem)
    · rcases List.mem_cons.mp h with rfl | hmem
      · exact Or.inl (List.mem_cons_self _ _)
      · rcases setKey_mem k v rest kv hmem with h2 | h2
        · exact Or.inl (List.mem_cons_of_mem _ h2)
        · exact Or.inr h2

theorem defaultEntry_ok (d : DataDirs) (i : Nat) :
    entryPathsOk d (defaultEntry i) := by
  refine ⟨?_, ?_, ?_, ?_⟩ <;> intro kv hkv <;> cases hkv

theorem addCatPath_ok (d : DataDirs) (dn : DirName) (i y : Nat) (e : ManifestEntry)
    (hok : entryPathsOk d e)
    (hpath : dn = DirName.watersheds ∨ tsPath dn i y ∈ dirPaths d dn) :
    entryPathsOk d (addCatPath e dn i y) := by
  cases dn with
  | watersheds => exact hok
  | temperature =>
    rcases hpath with h | hpath
    · cases h
    refine ⟨?_, hok.2.1, hok.2.2.1, hok.2.2.2⟩
    intro kv hkv
    rcases setKey_mem _ _ _ kv hkv with h2 | rfl
    · exact hok.1 kv h2
    · exact hpath
  | flow =>
    rcases hpath with h | hpath
    · cases h
    refine ⟨hok.1, ?_, hok.2.2.1, hok.2.2.2⟩
    intro kv hkv
    rcases setKey_mem _ _ _ kv hkv with h2 | rfl
    · exact hok.2.1 kv h2
    · exact hpath
  | quality =>
    rcases hpath with h | hpath
    · cases h
    refine ⟨hok.1, hok.2.1, ?_, hok.2.2.2⟩
    intro kv hkv
    rcases setKey_mem _ _ _ kv hkv with h2 | rfl
    · exact hok.2.2.1 kv h2
    · exact hpath
  | stage =>
    rcases hpath with h | hpath
    · cases h
    refine ⟨hok.1, hok.2.1, hok.2.2.1, ?_⟩
    intro kv hkv
    rcases setKey_mem _ _ _ kv hkv with h2 | rfl
    · exact hok.2.2.2 kv h2
    · exact hpath

theorem updateEntry_ok (d : DataDirs) (org : List (PyStr × ManifestEntry))
    (i : Nat) (f : ManifestEntry → ManifestEntry) (hok : orgOk d org)
    (hf : ∀ e, entryPathsOk d e → entryPathsOk d (f e)) :
    orgOk d (updateEntry org i f) := by
  intro kv hkv
  obtain ⟨kv0, hkv0, heq⟩ := List.mem_map.mp hkv
  by_cases h : kv0.1 = natRepr i
  · rw [if_pos h] at heq
    rw [← heq]
    exact hf kv0.2 (hok kv0 hkv0)
  · rw [if_neg h] at heq
    rw [← heq]
    exact hok kv0 hkv0

theorem ensure_ok (d : DataDirs) (org : List (PyStr × ManifestEntry)) (i : Nat)
    (hok : orgOk d org) :
    orgOk d (if hasKey (natRepr i) org then org
             else org ++ [(natRepr i, defaultEntry i)]) := by
  split_ifs
  · exact hok
  · intro kv hkv
    rcases List.mem_append.mp hkv with h | h
    · exact hok kv h
    · rw [List.mem_singleton.mp h]
      exact defaultEntry_ok d i

theorem scanSuccess_ok (d : DataDirs) (dn : DirName) (st : ScanState) (i y : Nat)
    (hok : orgOk d st.organized)
    (hpath : dn = DirName.watersheds ∨ tsPath dn i y ∈ dirPaths d dn) :
    orgOk d (scanSuccess dn st i y).organized := by
  unfold scanSuccess
  exact updateEntry_ok d _ i _ (ensure_ok d st.organized i hok)
    (fun e he => addCatPath_ok d dn i y e he hpath)

theorem processFileU_orgOk (d : DataDirs) (dn : DirName) (st : ScanState)
    (fn : PyStr) (hok : orgOk d st.organized)
    (hpath : ∀ i y,
      ((splitDash (pyRemoveAll fn ".json".data)).get? 1).bind pyParseNat = some i →
      ((splitDash (pyRemoveAll fn ".json".data)).get? 2).bind pyParseNat = some y →
      dn = DirName.watersheds ∨ tsPath dn i y ∈ dirPaths d dn) :
    orgOk d (processFileU dn st fn).organized := by
  simp only [processFileU]
  split_ifs with h1 h2
  all_goals
    first
      | exact hok
      | (cases hi : ((splitDash (pyRemoveAll fn ".json".data)).get? 1).bind pyParseNat with
         | none => exact hok
         | some i =>
           first
             | exact hok
             | (cases hy : ((splitDash (pyRemoveAll fn ".json".data)).get? 2).bind pyParseNat with
                | none => exact hok
                | some y => exact scanSuccess_ok d dn st i y hok (hpath i y hi hy)))

theorem processFileW_orgOk (d : DataDirs) (dn : DirName) (st : ScanState)
    (fn : PyStr) (hok : orgOk d st.organized)
    (hpath : ∀ i y,
      ((splitDash (pyRemoveAll fn ".json".data)).get? 1).bind pyParseNat = some i →
      ((splitDash (pyRemoveAll fn ".json".data)).get? 2).bind pyParseNat = some y →
      dn = DirName.watersheds ∨ tsPath dn i y ∈ dirPaths d dn) :
    orgOk d (processFileW dn st fn).organized := by
  simp only [processFileW]
  split_ifs with h1 h2 h3
  all_goals
    first
      | exact hok
      | (cases hi : ((splitDash (pyRemoveAll fn ".json".data)).get? 1).bind pyParseNat with
         | none => exact hok
         | some i =>
           first
             | exact hok
             | (cases hy : ((splitDash (pyRemoveAll fn ".json".data)).get? 2).bind pyParseNat with
                | none => exact hok
                | some y => exact scanSuccess_ok d dn st i y hok (hpath i y hi hy)))

theorem canonical_path_cond (d : DataDirs) (dn : DirName) (i0 y0 : Nat)
    (hmem : ("data/".data ++ dirString dn ++ '/' :: mkTsName i0 y0) ∈ dirPaths d dn) :
    ∀ i y,
      ((splitDash (pyRemoveAll (mkTsName i0 y0) ".json".data)).get? 1).bind
          pyParseNat = some i →
      ((splitDash (pyRemoveAll (mkTsName i0 y0) ".json".data)).get? 2).bind
          pyParseNat = some y →
      dn = DirName.watersheds ∨ tsPath dn i y ∈ dirPaths d dn := by
  intro i y h1 h2
  rw [splitDash_mkTsName] at h1 h2
  simp only [List.get?, Option.some_bind, pyParseNat_natRepr,
    Option.some.injEq] at h1 h2
  subst h1
  subst h2
  rw [tsPath_eq]
  exact Or.inr hmem

theorem foldFilesU_orgOk (d : DataDirs) (dn : DirName) :
    ∀ (files : List PyStr) (st : ScanState), orgOk d st.organized →
      (∀ fn ∈ files, dn = DirName.watersheds ∨
        ((∃ i y, fn = mkTsName i y) ∧
          ("data/".data ++ dirString dn ++ '/' :: fn) ∈ dirPaths d dn)) →
      orgOk d ((files.foldl (processFileU dn) st)).organized
  | [], st, hok, _ => hok
  | fn :: rest, st, hok, hfiles => by
    rw [List.foldl_cons]
    apply foldFilesU_orgOk d dn rest _ ?_
      (fun g hg => hfiles g (List.mem_cons_of_mem _ hg))
    rcases hfiles fn (List.mem_cons_self _ _) with hw | ⟨⟨i, y, rfl⟩, hmem⟩
    · exact processFileU_orgOk d dn st fn hok (fun _ _ _ _ => Or.inl hw)
    · exact processFileU_orgOk d dn st _ hok (canonical_path_cond d dn i y hmem)

theorem foldFilesW_orgOk (d : DataDirs) (dn : DirName) :
    ∀ (files : List PyStr) (st : ScanState), orgOk d st.organized →
      (∀ fn ∈ files, dn = DirName.watersheds ∨
        ((∃ i y, fn = mkTsName i y) ∧
          ("data/".data ++ dirString dn ++ '/' :: fn) ∈ dirPaths d dn)) →
      orgOk d ((files.foldl (processFileW dn) st)).organized
  | [], st, hok, _ => hok
  | fn :: rest, st, hok, hfiles => by
    rw [List.foldl_cons]
    apply foldFilesW_orgOk d dn rest _ ?_
      (fun g hg => hfiles g (List.mem_cons_of_mem _ hg))
    rcases hfiles fn (List.mem_cons_self _ _) with hw | ⟨⟨i, y, rfl⟩, hmem⟩
    · exact processFileW_orgOk d dn st fn hok (fun _ _ _ _ => Or.inl hw)
    · exact processFileW_orgOk d dn st _ hok (canonical_path_cond d dn i y hmem)

theorem processDirU_orgOk (d : DataDirs) (st : ScanState) (dn : DirName)
    (hok : orgOk d st.organized)
    (hc : dn = DirName.watersheds ∨
      ∀ l, listingOf d dn = some l → ∀ fn ∈ l, ∃ i y, fn = mkTsName i y) :
    orgOk d (processDirAux processFileU d st dn).organized := by
  unfold processDirAux
  cases hl : listingOf d dn with
  | none => exact hok
  | some l =>
    dsimp only
    refine foldFilesU_orgOk d dn _ _ ?_ ?_
    · exact hok
    intro fn hfn
    rcases hc with rfl | hc
    · exact Or.inl rfl
    · have hfn2 : fn ∈ l := List.mem_of_mem_filter hfn
      refine Or.inr ⟨hc l hl fn hfn2, ?_⟩
      unfold dirPaths
      rw [hl]
      exact List.mem_map_of_mem _ hfn2

theorem processDirW_orgOk (d : DataDirs) (st : ScanState) (dn : DirName)
    (hok : orgOk d st.organized)
    (hc : dn = DirName.watersheds ∨
      ∀ l, listingOf d dn = some l → ∀ fn ∈ l, ∃ i y, fn = mkTsName i y) :
    orgOk d (processDirAux processFileW d st dn).organized := by
  unfold processDirAux
  cases hl : listingOf d dn with
  | none => exact hok
  | some l =>
    dsimp only
    refine foldFilesW_orgOk d dn _ _ ?_ ?_
    · exact hok
    intro fn hfn
    rcases hc with rfl | hc
    · exact Or.inl rfl
    · have hfn2 : fn ∈ l := List.mem_of_mem_filter hfn
      refine Or.inr ⟨hc l hl fn hfn2, ?_⟩
      unfold dirPaths
      rw [hl]
      exact List.mem_map_of_mem _ hfn2

theorem scanU_orgOk (d : DataDirs)
    (hcanon : ∀ dn, dn ≠ DirName.watersheds →
      ∀ l, listingOf d dn = some l → ∀ fn ∈ l, ∃ i y, fn = mkTsName i y) :
    orgOk d (scanU d).organized := by
  have h0 : orgOk d (⟨0, ∅, ∅, []⟩ : ScanState).organized := by
    intro kv hkv
    cases hkv
  unfold scanU scanOrder
  simp only [List.foldl_cons, List.foldl_nil]
  exact processDirU_orgOk d _ _
    (processDirU_orgOk d _ _
      (processDirU_orgOk d _ _
        (processDirU_orgOk d _ _
          (processDirU_orgOk d _ _ h0 (Or.inl rfl))
          (Or.inr (hcanon _ (by simp))))
        (Or.inr (hcanon _ (by simp))))
      (Or.inr (hcanon _ (by simp))))
    (Or.inr (hcanon _ (by simp)))

theorem scanW_orgOk (d : DataDirs)
    (hcanon : ∀ dn, dn ≠ DirName.watersheds →
      ∀ l, listingOf d dn = some l → ∀ fn ∈ l, ∃ i y, fn = mkTsName i y) :
    orgOk d (scanW d).organized := by
  have h0 : orgOk d (⟨0, ∅, ∅, []⟩ : ScanState).organized := by
    intro kv hkv
    cases hkv
  unfold scanW scanOrder
  simp only [List.foldl_cons, List.foldl_nil]
  exact processDirW_orgOk d _ _
    (processDirW_orgOk d _ _
      (processDirW_orgOk d _ _
        (processDirW_orgOk d _ _
          (processDirW_orgOk d _ _ h0 (Or.inl rfl))
          (Or.inr (hcanon _ (by simp))))
        (Or.inr (hcanon _ (by simp))))
      (Or.inr (hcanon _ (by simp))))
    (Or.inr (hcanon _ (by simp)))

theorem dirPaths_subset_scanned (d : DataDirs) (dn : DirName) (p : PyStr)
    (hp : p ∈ dirPaths d dn) : p ∈ scannedPaths d := by
  unfold scannedPaths
  refine List.mem_flatten.mpr ⟨dirPaths d dn, List.mem_map_of_mem _ ?_, hp⟩
  cases dn <;> simp [scanOrder]

/-- Claim C2, amended: provided every file name in the four scanned
time-series directories is of the canonical form
`location-<id>-<year>.json`, every per-year category path placed in the
organized index by either manifest rebuild refers to a file actually present
in the matching scanned directory (hence among all scanned paths); the
`watershed` path of each entry, however, is fabricated from the naming
convention without any existence check and may reference a missing file. -/
theorem c2_organized_paths (m : Manifest) (d : DataDirs) (now : PyStr)
    (hcanon : ∀ dn, dn ≠ DirName.watersheds →
      ∀ l, listingOf d dn = some l → ∀ fn ∈ l, ∃ i y, fn = mkTsName i y) :
    orgOk d (updateManifestU m d now).organized ∧
    orgOk d (updateManifestW m d now).organized ∧
    (∀ dn p, p ∈ dirPaths d dn → p ∈ scannedPaths d) :=
  ⟨scanU_orgOk d hcanon, scanW_orgOk d hcanon,
    fun dn p hp => dirPaths_subset_scanned d dn p hp⟩

/-- An empty starting manifest for concrete manifest runs. -/
def m0Manifest : Manifest :=
  { version := []
    statistics := { total_files := 0, locations_covered := 0, years_covered := [] }
    organized := []
    last_updated := [] }

/-- Data directories holding one temperature file and no watershed file. -/
def c2dirs : DataDirs :=
  { watersheds := none
    temperature := some ["location-410-2023.json".data]
    quality := none
    flow := none
    stage := none }

/-- Counterexample to C2 as stated: scanning a single temperature file
creates an organized entry whose `watershed` path names a file that exists
in none of the scanned directories. -/
theorem c2_counterexample :
    ((updateManifestU m0Manifest c2dirs []).organized.lookup "410".data).map
        ManifestEntry.watershed =
      some "data/02-watersheds/location-410.json".data ∧
    "data/02-watersheds/location-410.json".data ∉ scannedPaths c2dirs := by
  with_unfolding_all decide

/-- Data directories whose only listing is canonical, for the C2 witness. -/
def c2wdirs : DataDirs :=
  { watersheds := none
    temperature := some [mkTsName 410 2023]
    quality := none
    flow := none
    stage := none }

/-- Witness for C2 (amended): with a canonical listing, both rebuilds place
only existing per-year paths in the organized index. -/
theorem c2_organized_paths_witness :
    orgOk c2wdirs (updateManifestU m0Manifest c2wdirs []).organized ∧
    orgOk c2wdirs (updateManifestW m0Manifest c2wdirs []).organized ∧
    (∀ dn p, p ∈ dirPaths c2wdirs dn → p ∈ scannedPaths c2wdirs) :=
  c2_organized_paths m0Manifest c2wdirs []
    (by
      intro dn hdn l hl fn hfn
      cases dn with
      | watersheds => exact absurd rfl hdn
      | temperature =>
        simp only [listingOf, c2wdirs, Option.some.injEq] at hl
        subst hl
        rw [List.mem_singleton] at hfn
        exact ⟨410, 2023, hfn⟩
      | quality => simp [listingOf, c2wdirs] at hl
      | flow => simp [listingOf, c2wdirs] at hl
      | stage => simp [listingOf, c2wdirs] at hl)
